import Mathlib

/-!
# PhotoUploader2: the two request handlers

A shallow embedding of `netlify/functions/dropbox-storage.js` and
`netlify/functions/compress-and-copy.js`.

* JavaScript values produced by `JSON.parse` are the type `Json`; a value that may
  also be `undefined` is an `Option Json` (`none` is `undefined`).
* A thrown error is `Except.error` carrying the error's `message`.
* The network, the clock and the image library are an explicit environment; the
  module-level variable `lastUploadTime` is explicit state.
-/

namespace PhotoUploader

/-! ## JavaScript values -/

/-- The values `JSON.parse` can produce.  Numbers are kept as integers: the code only ever
multiplies one of them (`retry_after`) by 1000. -/
inductive Json where
  | null
  | bool (b : Bool)
  | num (n : Int)
  | str (s : String)
  | arr (xs : List Json)
  | obj (kvs : List (String × Json))
  deriving Repr, Inhabited

/-- A JavaScript value that may be `undefined` (`none`). -/
abbrev JsVal := Option Json

/-- Own-property lookup in the key/value list of an object. -/
def lookup (k : String) : List (String × Json) → Option Json
  | [] => none
  | (k', v) :: rest => if k' = k then some v else lookup k rest

/-- Property assignment `o[k] = v` on the key/value list of an object: an existing key keeps
its position and takes the new value, a new key is appended. -/
def assign (k : String) (v : Json) : List (String × Json) → List (String × Json)
  | [] => [(k, v)]
  | (k', v') :: rest => if k' = k then (k, v) :: rest else (k', v') :: assign k v rest

/-- JavaScript truthiness (`ToBoolean`). -/
def truthy : JsVal → Bool
  | none => false
  | some .null => false
  | some (.bool b) => b
  | some (.num n) => n != 0
  | some (.str s) => s != ""
  | some (.arr _) => true
  | some (.obj _) => true

/-- Message of the TypeError raised by a property read on `null` or `undefined`. -/
def nullReadError (k : String) : String :=
  "Cannot read properties of null (reading '" ++ k ++ "')"

/-- Message of the TypeError raised by a property write on `null`. -/
def nullWriteError (k : String) : String :=
  "Cannot set properties of null (setting '" ++ k ++ "')"

/-- Message of the TypeError raised when a non-function is called as a method. -/
def notAFunctionError (what : String) : String :=
  what ++ " is not a function"

/-- Property read `v.k` / `v[k]` for the property names this program reads
(`error`, `reason`, `.tag`, `retry_after`, `access_token`, `address`, `unitNumber`, `path`):
`null` and `undefined` throw, an object yields its own property, and a boolean, number,
string or array has no property of any of these names. -/
def getProp (v : JsVal) (k : String) : Except String JsVal :=
  match v with
  | none => .error (nullReadError k)
  | some .null => .error (nullReadError k)
  | some (.obj kvs) => .ok (lookup k kvs)
  | some _ => .ok none

/-- Property write `v.k = x` (sloppy mode, as in a CommonJS module): `null` throws, an object
is updated, and on a boolean, number or string the write is silently dropped; on an array it
creates a non-index property, which `JSON.stringify` does not serialise. -/
def setProp (v : Json) (k : String) (x : Json) : Except String Json :=
  match v with
  | .null => .error (nullWriteError k)
  | .obj kvs => .ok (.obj (assign k x kvs))
  | other => .ok other

/-- The method call `v.hasOwnProperty(k)`: `null` throws; an object with an own property
named `hasOwnProperty` shadows the inherited method with a JSON value, which is not callable;
otherwise the inherited `Object.prototype.hasOwnProperty` answers whether `k` is an own key.
A boolean, number, string or array has no own key `address` or `unitNumber`. -/
def hasOwnProperty (v : Json) (k : String) : Except String Bool :=
  match v with
  | .null => .error (nullReadError "hasOwnProperty")
  | .obj kvs =>
    match lookup "hasOwnProperty" kvs with
    | some _ => .error (notAFunctionError "body.hasOwnProperty")
    | none => .ok (lookup k kvs).isSome
  | _ => .ok false

/-! ## JSON.stringify -/

/-- One hexadecimal digit. -/
def hexDigit (n : Nat) : Char :=
  if n < 10 then Char.ofNat (48 + n) else Char.ofNat (87 + n)

/-- The escape `JSON.stringify` writes for one character of a string. -/
def escapeChar (c : Char) : List Char :=
  if c = '"' then ['\\', '"']
  else if c = '\\' then ['\\', '\\']
  else if c = '\n' then ['\\', 'n']
  else if c = '\r' then ['\\', 'r']
  else if c = '\t' then ['\\', 't']
  else if c.toNat = 8 then ['\\', 'b']
  else if c.toNat = 12 then ['\\', 'f']
  else if c.toNat < 32 then ['\\', 'u', '0', '0', hexDigit (c.toNat / 16), hexDigit (c.toNat % 16)]
  else [c]

/-- A quoted JSON string. -/
def quote (s : String) : String :=
  "\"" ++ String.mk (s.toList.flatMap escapeChar) ++ "\""

mutual
/-- The text `JSON.stringify(v)` (no indentation). -/
def JSONstringify : Json → String
  | .null => "null"
  | .bool true => "true"
  | .bool false => "false"
  | .num n => toString n
  | .str s => quote s
  | .arr xs => "[" ++ stringifyItems xs ++ "]"
  | .obj kvs => "\x7b" ++ stringifyMembers kvs ++ "\x7d"
/-- The comma-separated elements of an array. -/
def stringifyItems : List Json → String
  | [] => ""
  | [x] => JSONstringify x
  | x :: y :: rest => JSONstringify x ++ "," ++ stringifyItems (y :: rest)
/-- The comma-separated members of an object. -/
def stringifyMembers : List (String × Json) → String
  | [] => ""
  | [(k, v)] => quote k ++ ":" ++ JSONstringify v
  | (k, v) :: p :: rest => quote k ++ ":" ++ JSONstringify v ++ "," ++ stringifyMembers (p :: rest)
end

/-! ## The environment: network, clock, process state -/

/-- A text (a request body or a response body) with the outcome of `JSON.parse` on it:
the parsed value, or the message of the SyntaxError. -/
structure Text where
  raw : String
  parsed : Except String Json

/-- What awaiting a `fetch` yields: a thrown network error, or a response with its `ok` flag,
its status and its body. -/
inductive Fetched where
  | threw (message : String)
  | response (ok : Bool) (status : Nat) (body : Text)

/-- One upload request sent to `DROPBOX_API_UPLOAD`: the clock when it was issued, the value
the module variable `lastUploadTime` had then, the suspension at which its answer is awaited,
the bearer token and the request body. -/
structure UploadRequest where
  issuedAt : Nat
  lastUploadTime : Nat
  slot : Nat
  accessToken : JsVal
  payload : String

/-- A network call of dropbox-storage. -/
inductive NetCall where
  | token
  | download
  | upload (request : UploadRequest)

/-- The process: the clock in milliseconds, the module variable `lastUploadTime`, and as
instrumentation the number of suspension points passed and the network calls made (newest
first). -/
structure Proc where
  clock : Nat
  lastUploadTime : Nat
  suspensions : Nat
  calls : List NetCall

/-- The world outside the process.  `elapse k` is the time the `k`-th suspension takes beyond
its minimum (a `delay(ms)` lasts `ms` plus that, an awaited network operation lasts that);
`upload k` is what the upload request awaited at the `k`-th suspension yields. -/
structure Env where
  elapse : Nat → Nat
  token : Fetched
  download : Fetched
  upload : Nat → Fetched

/-- One suspension point (`await`): at least `ms` milliseconds pass. -/
def tick (env : Env) (ms : Nat) (s : Proc) : Proc :=
  { s with clock := s.clock + ms + env.elapse s.suspensions, suspensions := s.suspensions + 1 }

/-- Records a network call. -/
def note (c : NetCall) (s : Proc) : Proc :=
  { s with calls := c :: s.calls }

/-! ## dropbox-storage.js -/

/-- The three module constants read from `process.env`; `none` is `undefined`. -/
structure Config where
  DROPBOX_REFRESH_TOKEN : Option String
  DROPBOX_APP_KEY : Option String
  DROPBOX_APP_SECRET : Option String

/-- The test `!X` on an environment variable: true for `undefined` and for the empty string. -/
def unset (x : Option String) : Bool :=
  match x with
  | none => true
  | some v => v == ""

def MIN_UPLOAD_INTERVAL : Nat := 1000

def CORS_HEADERS : List (String × String) :=
  [("Access-Control-Allow-Origin", "*"),
   ("Access-Control-Allow-Headers", "Content-Type"),
   ("Access-Control-Allow-Methods", "GET, POST, OPTIONS")]

/-- The request: its method and its body (`none` when there is no body). -/
structure Event where
  httpMethod : String
  body : Option Text

/-- The response of a handler. -/
structure Response where
  statusCode : Nat
  headers : List (String × String)
  body : String
  deriving DecidableEq, Repr

/-- `getDropboxAccessToken`: one request to the token endpoint; a non-ok response throws with
the response text, otherwise the body is parsed and its `access_token` property returned. -/
def getDropboxAccessToken (env : Env) (s : Proc) : Except String JsVal × Proc :=
  let s1 := tick env 0 (note .token s)
  match env.token with
  | .threw m => (.error m, s1)
  | .response ok _ body =>
    let s2 := tick env 0 s1
    if !ok then
      (.error ("Failed to refresh Dropbox access token: " ++ body.raw), s2)
    else
      match body.parsed with
      | .error m => (.error m, s2)
      | .ok data => (getProp (some data) "access_token", s2)

/-- The strict comparison `v === s` with a string literal. -/
def isString (v : JsVal) (s : String) : Bool :=
  match v with
  | some (.str t) => t == s
  | _ => false

/-- The rate-limit test of line 85,
`errorData.error && errorData.error.reason && errorData.error.reason['.tag'] === '...'`;
when it holds the result is `errorData.error.retry_after || 1`. -/
def rateLimit (errorData : Json) : Except String (Option JsVal) := do
  let error ← getProp (some errorData) "error"
  if !truthy error then return none
  let reason ← getProp error "reason"
  if !truthy reason then return none
  let tag ← getProp reason ".tag"
  if !isString tag "too_many_write_operations" then return none
  let retryAfter ← getProp error "retry_after"
  return some (if truthy retryAfter then retryAfter else some (.num 1))

/-- The least time `delay(retryAfter * 1000)` suspends: a non-negative number gives that many
seconds; any other value gives no guarantee (the suspension still takes `elapse`). -/
def retryDelay (retryAfter : JsVal) : Nat :=
  match retryAfter with
  | some (.num n) => (n * 1000).toNat
  | _ => 0

/-- How the body of the `try` block of one loop iteration ends. -/
inductive TryOutcome where
  | returned (status : Nat)
  | continued
  | thrown (message : String)

/-- Lines 59-65, the rate limiter: when less than `MIN_UPLOAD_INTERVAL` has passed since
`lastUploadTime`, wait for the rest of the interval. -/
def throttle (env : Env) (s : Proc) : Proc :=
  let now := s.clock
  let timeSinceLastUpload : Int := (now : Int) - (s.lastUploadTime : Int)
  if timeSinceLastUpload < (MIN_UPLOAD_INTERVAL : Int) then
    let waitTime := (MIN_UPLOAD_INTERVAL : Int) - timeSinceLastUpload
    tick env waitTime.toNat s
  else s

/-- The body of the `try` block (lines 58-96) for one attempt. -/
def tryUpload (env : Env) (accessToken : JsVal) (data : Json) (maxRetries attempt : Nat)
    (s : Proc) : TryOutcome × Proc :=
  let s1 := throttle env s
  let request : UploadRequest :=
    { issuedAt := s1.clock, lastUploadTime := s1.lastUploadTime, slot := s1.suspensions,
      accessToken := accessToken, payload := JSONstringify data }
  let s2 := tick env 0 (note (.upload request) s1)
  match env.upload s1.suspensions with
  | .threw m => (.thrown m, s2)
  | .response ok status body =>
    if ok then
      (.returned status, { s2 with lastUploadTime := s2.clock })
    else
      let s3 := tick env 0 s2
      match body.parsed with
      | .error m => (.thrown m, s3)
      | .ok errorData =>
        match rateLimit errorData with
        | .error m => (.thrown m, s3)
        | .ok (some retryAfter) =>
          if attempt < maxRetries then
            (.continued, tick env (retryDelay retryAfter) s3)
          else
            (.thrown ("Upload failed: " ++ JSONstringify errorData), s3)
        | .ok none => (.thrown ("Upload failed: " ++ JSONstringify errorData), s3)

/-- The `for` loop of `uploadToDropboxWithRetry`.  The first argument is the number of
iterations left, `maxRetries + 1 - attempt`: it is zero exactly when the loop test
`attempt <= maxRetries` fails, and the function then returns `undefined` (`none`). -/
def uploadLoop (env : Env) (accessToken : JsVal) (data : Json) (maxRetries : Nat) :
    Nat → Nat → Proc → Except String (Option Nat) × Proc
  | 0, _, s => (.ok none, s)
  | left + 1, attempt, s =>
    match tryUpload env accessToken data maxRetries attempt s with
    | (.returned status, s1) => (.ok (some status), s1)
    | (.continued, s1) => uploadLoop env accessToken data maxRetries left (attempt + 1) s1
    | (.thrown m, s1) =>
      if attempt = maxRetries then (.error m, s1)
      else
        uploadLoop env accessToken data maxRetries left (attempt + 1)
          (tick env (1000 * attempt) s1)

/-- `uploadToDropboxWithRetry(accessToken, data, maxRetries)`: the result is the status of the
successful response, `none` when the loop ends without a request, or the thrown error. -/
def uploadToDropboxWithRetry (env : Env) (accessToken : JsVal) (data : Json) (maxRetries : Nat)
    (s : Proc) : Except String (Option Nat) × Proc :=
  uploadLoop env accessToken data maxRetries maxRetries 1 s

/-- `JSON.parse(event.body)`; without a body the argument is `undefined`, which is not JSON. -/
def parseBody (body : Option Text) : Except String Json :=
  match body with
  | none => .error "\"undefined\" is not valid JSON"
  | some t => t.parsed

/-- Lines 134-135 for one key: `body.hasOwnProperty(k) ? body[k] : undefined`. -/
def ownValue (body : Json) (k : String) : Except String JsVal := do
  if (← hasOwnProperty body k) then getProp (some body) k else pure none

/-- Lines 173-180 for one key: `if (body.hasOwnProperty(k)) currentData[k] = body[k]`.  An own
property of a parsed JSON object is never `undefined`, so the last case is not reached. -/
def updateField (body : Json) (k : String) (currentData : Json) : Except String Json := do
  if (← hasOwnProperty body k) then
    match (← getProp (some body) k) with
    | some v => setProp currentData k v
    | none => pure currentData
  else pure currentData

/-- Lines 172-180: both recognised keys are applied to `currentData`, `address` first. -/
def mergeRecord (body : Json) (currentData : Json) : Except String Json :=
  updateField body "address" currentData >>= updateField body "unitNumber"

/-- Lines 150-168: the existing record, `{}` unless the download answers ok and its text
parses; whatever is thrown inside the inner `try` is caught and ignored. -/
def readCurrent (env : Env) (s : Proc) : Json × Proc :=
  let s1 := tick env 0 (note .download s)
  match env.download with
  | .threw _ => (.obj [], s1)
  | .response ok _ body =>
    if ok then
      let s2 := tick env 0 s1
      match body.parsed with
      | .error _ => (.obj [], s2)
      | .ok existing => (existing, s2)
    else (.obj [], s1)

def errorResponse (status : Nat) (message : String) : Response :=
  { statusCode := status, headers := CORS_HEADERS,
    body := JSONstringify (.obj [("error", .str message)]) }

/-- The `try` block of the POST branch (lines 128-194). -/
def postTry (env : Env) (event : Event) (s : Proc) : Except String Response × Proc :=
  match parseBody event.body with
  | .error m => (.error m, s)
  | .ok body =>
    match ownValue body "address", ownValue body "unitNumber" with
    | .error m, _ => (.error m, s)
    | _, .error m => (.error m, s)
    | .ok address, .ok unitNumber =>
      if address.isNone && unitNumber.isNone then
        (.ok (errorResponse 400 "Missing address and unitNumber fields"), s)
      else
        match getDropboxAccessToken env s with
        | (.error m, s1) => (.error m, s1)
        | (.ok accessToken, s1) =>
          let (currentData, s2) := readCurrent env s1
          match mergeRecord body currentData with
          | .error m => (.error m, s2)
          | .ok merged =>
            match uploadToDropboxWithRetry env accessToken merged 3 s2 with
            | (.error m, s3) => (.error m, s3)
            | (.ok _, s3) =>
              (.ok { statusCode := 200, headers := CORS_HEADERS,
                     body := JSONstringify (.obj [("success", .bool true), ("data", merged)]) },
                s3)

/-- The `try` block of the GET branch (lines 206-234). -/
def getTry (env : Env) (s : Proc) : Except String Response × Proc :=
  match getDropboxAccessToken env s with
  | (.error m, s1) => (.error m, s1)
  | (.ok _, s1) =>
    let s2 := tick env 0 (note .download s1)
    match env.download with
    | .threw m => (.error m, s2)
    | .response ok _ body =>
      if !ok then (.ok (errorResponse 404 "No data found"), s2)
      else (.ok { statusCode := 200, headers := CORS_HEADERS, body := body.raw }, tick env 0 s2)

/-- A `try` block whose `catch` answers 500 with the error's message. -/
def orError500 (r : Except String Response × Proc) : Response × Proc :=
  match r with
  | (.ok response, s) => (response, s)
  | (.error m, s) => (errorResponse 500 m, s)

/-- The handler `exports.handler` of dropbox-storage.js. -/
def storageHandler (cfg : Config) (env : Env) (event : Event) (s : Proc) : Response × Proc :=
  if event.httpMethod = "OPTIONS" then
    ({ statusCode := 200, headers := CORS_HEADERS, body := "" }, s)
  else if unset cfg.DROPBOX_REFRESH_TOKEN || unset cfg.DROPBOX_APP_KEY
      || unset cfg.DROPBOX_APP_SECRET then
    (errorResponse 500 "Missing Dropbox OAuth credentials", s)
  else if event.httpMethod = "POST" then orError500 (postTry env event s)
  else if event.httpMethod = "GET" then orError500 (getTry env s)
  else (errorResponse 405 "Method Not Allowed", s)

/-! ## compress-and-copy.js -/

def CORS : List (String × String) :=
  [("Access-Control-Allow-Origin", "*"),
   ("Access-Control-Allow-Methods", "POST, OPTIONS"),
   ("Access-Control-Allow-Headers", "Content-Type")]

/-- A network call of compress-and-copy, with the `path` of its `Dropbox-API-Arg`. -/
inductive CopyCall where
  | token
  | download (path : String)
  | upload (path : String)
  deriving DecidableEq, Repr

/-- The world outside compress-and-copy: the three network answers, and the image library:
`format` is what `sharp(original).metadata()` yields (its `format`, or a throw) and
`encode f` what `toBuffer()` yields on the pipeline with the encoder `f`. -/
structure CopyEnv where
  token : Fetched
  download : Fetched
  format : Except String (Option String)
  encode : String → Except String String
  upload : Fetched

/-- `getAccessToken`: one request to the token endpoint; a non-ok response throws with the
status and the response text, otherwise the body is parsed and its `access_token` returned. -/
def getAccessToken (env : CopyEnv) : Except String JsVal :=
  match env.token with
  | .threw m => .error m
  | .response ok status body =>
    if !ok then
      .error ("Token exchange failed: " ++ toString status ++ " " ++ body.raw)
    else
      match body.parsed with
      | .error m => .error m
      | .ok data => getProp (some data) "access_token"

mutual
/-- The string a value becomes inside a template literal (`ToString`). -/
def toStringJs : Json → String
  | .null => "null"
  | .bool true => "true"
  | .bool false => "false"
  | .num n => toString n
  | .str s => s
  | .arr xs => joinJs xs
  | .obj _ => "[object Object]"
/-- `Array.prototype.join`: elements separated by commas, `null` written as nothing. -/
def joinJs : List Json → String
  | [] => ""
  | [x] => elementJs x
  | x :: y :: rest => elementJs x ++ "," ++ joinJs (y :: rest)
/-- One element of a joined array. -/
def elementJs : Json → String
  | .null => ""
  | .bool true => "true"
  | .bool false => "false"
  | .num n => toString n
  | .str s => s
  | .arr xs => joinJs xs
  | .obj _ => "[object Object]"
end

/-- Whether `([^\/]+)$` matches the whole of `cs`: at least one character, none a slash. -/
def isFilename (cs : List Char) : Bool :=
  !cs.isEmpty && cs.all (fun c => c != '/')

/-- The replacement `replace(/([^\/]+)$/, 'SIR/$1')` on the characters of a string: the
leftmost position from which the pattern matches up to the end of the input gets `SIR/`
put in front; without a match the string is unchanged. -/
def replaceFilename : List Char → List Char
  | [] => []
  | c :: cs =>
    if isFilename (c :: cs) then "SIR/".toList ++ (c :: cs)
    else c :: replaceFilename cs

/-- Line 91: `'/' + path.replace(/([^\/]+)$/, 'SIR/$1')`. -/
def uploadPathOf (path : String) : String :=
  "/" ++ String.mk (replaceFilename path.toList)

/-- `String.prototype.toLowerCase` on the format names of the image library (ASCII). -/
def toLowerCase (s : String) : String :=
  String.mk (s.toList.map Char.toLower)

/-- Lines 80-88: the encoder chosen from `meta.format`. -/
def encoderOf (format : Option String) : String :=
  let f := toLowerCase (format.getD "")
  if f = "png" then "png" else if f = "webp" then "webp" else "jpeg"

/-- `JSON.parse(event.body || '\x7b\x7d')`. -/
def parseBodyOrEmpty (body : Option Text) : Except String Json :=
  match body with
  | none => .ok (.obj [])
  | some t => if t.raw = "" then .ok (.obj []) else t.parsed

/-- The answer to a request without a `path` (line 47). -/
def missingPath : Response :=
  { statusCode := 400, headers := CORS,
    body := JSONstringify (.obj [("error", .str "Missing \"path\"")]) }

/-- The `try` block of the compress-and-copy handler (lines 45-114), with the network calls
it makes, oldest first. -/
def copyTry (env : CopyEnv) (event : Event) : Except String Response × List CopyCall :=
  match parseBodyOrEmpty event.body >>= fun parsed => getProp (some parsed) "path" with
  | .error m => (.error m, [])
  | .ok path =>
    match path, truthy path with
    | none, _ => (.ok missingPath, [])
    | some _, false => (.ok missingPath, [])
    | some p, true =>
      match getAccessToken env with
      | .error m => (.error m, [.token])
      | .ok _ =>
        let source := "/" ++ toStringJs p
        let calls := [.token, .download source]
        match env.download with
        | .threw m => (.error m, calls)
        | .response ok status body =>
          if !ok then
            (.error ("Download failed: " ++ toString status ++ " " ++ body.raw), calls)
          else
            match env.format with
            | .error m => (.error m, calls)
            | .ok format =>
              match env.encode (encoderOf format) with
              | .error m => (.error m, calls)
              | .ok _ =>
                match p with
                | .str text =>
                  let uploadPath := uploadPathOf text
                  let calls := calls ++ [.upload uploadPath]
                  match env.upload with
                  | .threw m => (.error m, calls)
                  | .response ok status body =>
                    if !ok then
                      (.error ("Upload failed: " ++ toString status ++ " " ++ body.raw), calls)
                    else
                      (.ok { statusCode := 200, headers := CORS,
                             body := JSONstringify (.obj [("ok", .bool true),
                               ("source", .str source), ("compressed", .str uploadPath)]) },
                        calls)
                | _ => (.error (notAFunctionError "path.replace"), calls)

/-- The handler `exports.handler` of compress-and-copy.js.  It does not read `cfg` before the
token exchange: the three constants only enter the body of the token request. -/
def copyHandler (_cfg : Config) (env : CopyEnv) (event : Event) : Response × List CopyCall :=
  if event.httpMethod = "OPTIONS" then
    ({ statusCode := 200, headers := CORS, body := "" }, [])
  else if event.httpMethod ≠ "POST" then
    ({ statusCode := 405, headers := CORS,
       body := JSONstringify (.obj [("error", .str "Method Not Allowed")]) }, [])
  else
    match copyTry env event with
    | (.ok response, calls) => (response, calls)
    | (.error m, calls) =>
      ({ statusCode := 500, headers := CORS,
         body := JSONstringify (.obj [("error", .str m)]) }, calls)

/-! ## Specification-level definitions -/

/-- The update the specification describes for one key: a key present in the update `U`
takes the value `U` gives it, an absent key leaves the record `E` as it is. -/
def specUpdate (k : String) (U E : List (String × Json)) : List (String × Json) :=
  match lookup k U with
  | some v => assign k v E
  | none => E

/-- The record the specification describes: `E` updated at those of the keys `address` and
`unitNumber` that are present in `U`. -/
def specMerge (U E : List (String × Json)) : List (String × Json) :=
  specUpdate "unitNumber" U (specUpdate "address" U E)

/-- The request one attempt sends. -/
def requestOf (env : Env) (tok : JsVal) (data : Json) (s : Proc) : UploadRequest :=
  { issuedAt := (throttle env s).clock, lastUploadTime := (throttle env s).lastUploadTime,
    slot := (throttle env s).suspensions, accessToken := tok, payload := JSONstringify data }

/-- The upload requests among the network calls, newest first. -/
def uploadsIn (calls : List NetCall) : List UploadRequest :=
  calls.filterMap (fun c => match c with | .upload r => some r | _ => none)

/-- The error body the specification calls a rate-limit report: an object whose `error` has
the `reason` tagged `too_many_write_operations`, here with `retry_after` 1. -/
def CarriesRateLimit (errorData : Json) : Prop :=
  ∃ top e r, errorData = .obj top ∧ lookup "error" top = some (.obj e) ∧
    lookup "reason" e = some (.obj r) ∧
    lookup ".tag" r = some (.str "too_many_write_operations") ∧
    lookup "retry_after" e = some (.num 1)

/-- Whether a parsed body has the own key `k`. -/
def hasKey (j : Json) (k : String) : Bool :=
  match j with
  | .obj kvs => (lookup k kvs).isSome
  | _ => false

/-- One call of `uploadToDropboxWithRetry` in a sequential execution; `idle` is the time the
process spends on other things before the call. -/
structure WriteCall where
  env : Env
  idle : Nat
  accessToken : JsVal
  data : Json
  maxRetries : Nat

/-- What one call of a sequential execution did: its result, the clock when it ended, the
value of `lastUploadTime` when it ended, and the upload requests it issued (newest first). -/
structure Episode where
  result : Except String (Option Nat)
  finishedAt : Nat
  recorded : Nat
  requests : List UploadRequest

/-- Whether the call ended in a successful write: it returned the response that was ok. -/
def succeeded (e : Episode) : Bool :=
  match e.result with
  | .ok (some _) => true
  | _ => false

/-- The process when a call starts: the idle time has passed; the trace of network calls is
emptied, so that after the call it holds the calls of this call alone. -/
def startOf (c : WriteCall) (s : Proc) : Proc :=
  { s with clock := s.clock + c.idle, calls := [] }

/-- A sequential execution: the calls run one at a time, each to its end; the result lists
what each call did, oldest first. -/
def runWrites : List WriteCall → Proc → List Episode
  | [], _ => []
  | c :: cs, s =>
    let r := uploadToDropboxWithRetry c.env c.accessToken c.data c.maxRetries (startOf c s)
    { result := r.1, finishedAt := r.2.clock, recorded := r.2.lastUploadTime,
      requests := uploadsIn r.2.calls } :: runWrites cs r.2

/-! ## Sample inputs -/

/-- The text `JSON.stringify` writes for a value; `JSON.parse` gives the value back. -/
def textOf (j : Json) : Text := ⟨JSONstringify j, .ok j⟩

/-- A process that has made no call yet. -/
def freshProc (clock : Nat) : Proc :=
  { clock := clock, lastUploadTime := 0, suspensions := 0, calls := [] }

/-- A configuration with the three credentials set. -/
def sampleConfig : Config :=
  { DROPBOX_REFRESH_TOKEN := some "refresh", DROPBOX_APP_KEY := some "key",
    DROPBOX_APP_SECRET := some "secret" }

/-- The stored record of the sample runs. -/
def sampleRecord : List (String × Json) :=
  [("address", .str "1 Main St"), ("note", .str "keep"), ("unitNumber", .str "4B")]

/-- A world in which every request succeeds at once and the store holds `sampleRecord`. -/
def sampleEnv : Env :=
  { elapse := fun _ => 0
    token := .response true 200 (textOf (.obj [("access_token", .str "t")]))
    download := .response true 200 (textOf (.obj sampleRecord))
    upload := fun _ => .response true 200 (textOf (.obj [])) }

/-- A POST whose body is the given object. -/
def postOf (U : List (String × Json)) : Event :=
  { httpMethod := "POST", body := some (textOf (.obj U)) }

/-- The sample world with a store whose content is not valid JSON. -/
def corruptEnv : Env :=
  { sampleEnv with
    download := .response true 200 ⟨"address=1 Main St", .error "Unexpected token"⟩ }

/-- The sample world with a store that holds the given record. -/
def storeOf (E : List (String × Json)) : Env :=
  { sampleEnv with download := .response true 200 (textOf (.obj E)) }

/-- A configuration with no credential at all. -/
def noConfig : Config :=
  { DROPBOX_REFRESH_TOKEN := none, DROPBOX_APP_KEY := none, DROPBOX_APP_SECRET := none }

/-- A world of compress-and-copy in which every request succeeds and the image is a JPEG. -/
def sampleCopyEnv : CopyEnv :=
  { token := .response true 200 (textOf (.obj [("access_token", .str "t")]))
    download := .response true 200 ⟨"image bytes", .error "Unexpected token"⟩
    format := .ok (some "jpeg")
    encode := fun _ => .ok "compressed bytes"
    upload := .response true 200 (textOf (.obj [])) }

/-- A POST to compress-and-copy for the given path. -/
def copyOf (path : String) : Event :=
  { httpMethod := "POST", body := some (textOf (.obj [("path", .str path)])) }

/-- A token endpoint that answers with a success status and the given JSON body. -/
def tokenAnswer (j : Json) : Fetched := .response true 200 (textOf j)

/-- The rate-limit error body of the upload endpoint, with `retry_after` 1. -/
def rateLimitBody : Json :=
  .obj [("error_summary", .str "too_many_write_operations/"),
        ("error", .obj [("reason", .obj [(".tag", .str "too_many_write_operations")]),
                        ("retry_after", .num 1)])]

/-- The sample world with an upload endpoint that always reports the rate limit. -/
def rateLimitedEnv : Env :=
  { sampleEnv with upload := fun _ => .response false 429 (textOf rateLimitBody) }

/-- An error body of the upload endpoint that is not a rate-limit report. -/
def conflictBody : Json :=
  .obj [("error_summary", .str "path/conflict/file/"),
        ("error", .obj [(".tag", .str "path")])]

/-- The sample world with an upload endpoint that always reports a path conflict. -/
def conflictEnv : Env :=
  { sampleEnv with upload := fun _ => .response false 409 (textOf conflictBody) }

/-- A successful write in the sample world, issued right after the previous one. -/
def sampleWrite : WriteCall :=
  { env := sampleEnv, idle := 0, accessToken := some (.str "t"), data := .obj sampleRecord,
    maxRetries := 3 }

/-! ## Theorems -/

theorem lookup_assign (k : String) (v : Json) (kvs : List (String × Json)) (k' : String) :
    lookup k' (assign k v kvs) = if k' = k then some v else lookup k' kvs := by
  induction kvs with
  | nil =>
    by_cases h : k' = k
    · simp [assign, lookup, h]
    · have h' : ¬ k = k' := fun e => h e.symm
      simp [assign, lookup, h, h']
  | cons p rest ih =>
    obtain ⟨a, b⟩ := p
    by_cases h1 : a = k
    · by_cases h2 : k' = k
      · simp [assign, lookup, h1, h2]
      · have h' : ¬ k = k' := fun e => h2 e.symm
        simp [assign, lookup, h1, h2, h']
    · by_cases h3 : a = k'
      · have h4 : ¬ k' = k := fun e => h1 (h3.trans e)
        simp [assign, lookup, h1, h3, h4]
      · simp [assign, lookup, h1, h3, ih]

theorem assign_eq_self (k : String) (v : Json) (kvs : List (String × Json))
    (h : lookup k kvs = some v) : assign k v kvs = kvs := by
  induction kvs with
  | nil => simp [lookup] at h
  | cons p rest ih =>
    obtain ⟨a, b⟩ := p
    by_cases h1 : a = k
    · simp [lookup, h1] at h
      simp [assign, h1, h]
    · simp [lookup, h1] at h
      simp [assign, h1, ih h]

theorem lookup_specUpdate (k : String) (U E : List (String × Json)) (k' : String) :
    lookup k' (specUpdate k U E)
      = if k' = k ∧ (lookup k U).isSome then lookup k U else lookup k' E := by
  unfold specUpdate
  cases h : lookup k U with
  | none => simp
  | some v =>
    by_cases hk : k' = k
    · simp [lookup_assign, hk]
    · simp [lookup_assign, hk]

theorem lookup_specMerge (U E : List (String × Json)) (k : String) :
    lookup k (specMerge U E)
      = if (k = "address" ∨ k = "unitNumber") ∧ (lookup k U).isSome then lookup k U
        else lookup k E := by
  unfold specMerge
  rw [lookup_specUpdate, lookup_specUpdate]
  by_cases h1 : k = "unitNumber"
  · subst h1
    by_cases h2 : (lookup "unitNumber" U).isSome
    · simp [h2]
    · simp [h2]
  · by_cases h3 : k = "address"
    · subst h3
      simp
    · simp [h1, h3]

theorem specMerge_idem (U E : List (String × Json)) :
    specMerge U (specMerge U E) = specMerge U E := by
  have ha : specUpdate "address" U (specMerge U E) = specMerge U E := by
    unfold specUpdate
    cases h : lookup "address" U with
    | none => rfl
    | some v =>
      apply assign_eq_self
      rw [lookup_specMerge]
      simp [h]
  have hu : specUpdate "unitNumber" U (specMerge U E) = specMerge U E := by
    unfold specUpdate
    cases h : lookup "unitNumber" U with
    | none => rfl
    | some v =>
      apply assign_eq_self
      rw [lookup_specMerge]
      simp [h]
  show specUpdate "unitNumber" U (specUpdate "address" U (specMerge U E)) = specMerge U E
  rw [ha, hu]

theorem mergeRecord_obj (U E : List (String × Json)) (h : lookup "hasOwnProperty" U = none) :
    mergeRecord (.obj U) (.obj E) = .ok (.obj (specMerge U E)) := by
  unfold mergeRecord specMerge specUpdate
  cases ha : lookup "address" U <;> cases hu : lookup "unitNumber" U <;>
    simp [updateField, hasOwnProperty, h, ha, hu, getProp, setProp, bind, Except.bind, pure, Except.pure]

@[simp] theorem tick_calls (env : Env) (ms : Nat) (s : Proc) : (tick env ms s).calls = s.calls := rfl
@[simp] theorem tick_lastUploadTime (env : Env) (ms : Nat) (s : Proc) :
    (tick env ms s).lastUploadTime = s.lastUploadTime := rfl
@[simp] theorem tick_clock (env : Env) (ms : Nat) (s : Proc) :
    (tick env ms s).clock = s.clock + ms + env.elapse s.suspensions := rfl
@[simp] theorem tick_suspensions (env : Env) (ms : Nat) (s : Proc) :
    (tick env ms s).suspensions = s.suspensions + 1 := rfl
@[simp] theorem note_calls (c : NetCall) (s : Proc) : (note c s).calls = c :: s.calls := rfl
@[simp] theorem note_lastUploadTime (c : NetCall) (s : Proc) :
    (note c s).lastUploadTime = s.lastUploadTime := rfl
@[simp] theorem note_clock (c : NetCall) (s : Proc) : (note c s).clock = s.clock := rfl
@[simp] theorem note_suspensions (c : NetCall) (s : Proc) :
    (note c s).suspensions = s.suspensions := rfl

theorem throttle_spec (env : Env) (s : Proc) :
    (throttle env s).calls = s.calls ∧ (throttle env s).lastUploadTime = s.lastUploadTime ∧
    s.lastUploadTime + MIN_UPLOAD_INTERVAL ≤ (throttle env s).clock ∧
    s.clock ≤ (throttle env s).clock := by
  unfold throttle MIN_UPLOAD_INTERVAL
  simp only []
  split
  · refine ⟨rfl, rfl, ?_, ?_⟩ <;> simp only [tick_clock] <;> omega
  · refine ⟨rfl, rfl, ?_, le_refl _⟩
    omega

theorem tryUpload_calls (env : Env) (tok : JsVal) (data : Json) (mr attempt : Nat) (s : Proc) :
    (tryUpload env tok data mr attempt s).2.calls = .upload (requestOf env tok data s) :: s.calls ∧
    (requestOf env tok data s).issuedAt ≤ (tryUpload env tok data mr attempt s).2.clock := by
  have hc := (throttle_spec env s).1
  unfold tryUpload requestOf
  simp only []
  split
  · simp [hc]
  · split
    · simp [hc]
    · split
      · simp [hc]; omega
      · split
        · simp [hc]; omega
        · split <;> (simp [hc]; omega)
        · simp [hc]; omega

theorem tryUpload_state (env : Env) (tok : JsVal) (data : Json) (mr attempt : Nat) (s : Proc) :
    (∃ st, (tryUpload env tok data mr attempt s).1 = .returned st ∧
        (tryUpload env tok data mr attempt s).2.lastUploadTime
          = (tryUpload env tok data mr attempt s).2.clock) ∨
    ((∀ st, (tryUpload env tok data mr attempt s).1 ≠ .returned st) ∧
        (tryUpload env tok data mr attempt s).2.lastUploadTime = s.lastUploadTime) := by
  obtain ⟨_, hl, _, _⟩ := throttle_spec env s
  unfold tryUpload
  simp only []
  split
  · right; simp [hl]
  · split
    · left; simp
    · split
      · right; simp [hl]
      · split
        · right; simp [hl]
        · split <;> (right; simp [hl])
        · right; simp [hl]

theorem rateLimit_of_carries (d : Json) (h : CarriesRateLimit d) :
    rateLimit d = .ok (some (some (.num 1))) := by
  obtain ⟨top, e, r, rfl, h1, h2, h3, h4⟩ := h
  simp [rateLimit, getProp, h1, h2, h3, h4, truthy, isString, bind, Except.bind, pure,
    Except.pure]

theorem uploadLoop_payload (env : Env) (tok : JsVal) (data : Json) (mr : Nat) :
    ∀ (left attempt : Nat) (s : Proc) (r : UploadRequest),
      NetCall.upload r ∈ (uploadLoop env tok data mr left attempt s).2.calls →
      NetCall.upload r ∈ s.calls ∨ r.payload = JSONstringify data := by
  intro left
  induction left with
  | zero => intro attempt s r h; exact Or.inl h
  | succ n ih =>
    intro attempt s r h
    have hc := (tryUpload_calls env tok data mr attempt s).1
    have key : NetCall.upload r ∈ (tryUpload env tok data mr attempt s).2.calls →
        NetCall.upload r ∈ s.calls ∨ r.payload = JSONstringify data := by
      intro hm
      rw [hc] at hm
      rcases List.mem_cons.mp hm with h1 | h1
      · right
        injection h1 with h1
        rw [h1]; rfl
      · exact Or.inl h1
    unfold uploadLoop at h
    split at h
    · rename_i st s1 heq
      apply key; rw [heq]; exact h
    · rename_i s1 heq
      rcases ih _ _ _ h with h1 | h1
      · apply key; rw [heq]; exact h1
      · exact Or.inr h1
    · rename_i m s1 heq
      split at h
      · apply key; rw [heq]; exact h
      · rcases ih _ _ _ h with h1 | h1
        · apply key; rw [heq]; simpa using h1
        · exact Or.inr h1

theorem getDropboxAccessToken_calls (env : Env) (s : Proc) :
    (getDropboxAccessToken env s).2.calls = .token :: s.calls := by
  unfold getDropboxAccessToken
  simp only []
  split
  · rfl
  · split
    · rfl
    · split <;> rfl

theorem readCurrent_calls (env : Env) (s : Proc) :
    (readCurrent env s).2.calls = .download :: s.calls := by
  unfold readCurrent
  simp only []
  split
  · rfl
  · split
    · split <;> rfl
    · rfl

theorem readCurrent_value (env : Env) (s : Proc) (status : Nat) (body : Text) (D : Json)
    (h : env.download = .response true status body) (hp : body.parsed = .ok D) :
    (readCurrent env s).1 = D := by
  unfold readCurrent
  simp [h, hp]

theorem readCurrent_invalid (env : Env) (s : Proc) (status : Nat) (body : Text) (m : String)
    (h : env.download = .response true status body) (hp : body.parsed = .error m) :
    (readCurrent env s).1 = .obj [] := by
  unfold readCurrent
  simp [h, hp]

theorem upload_payload (env : Env) (tok : JsVal) (data : Json) (mr : Nat) (s : Proc)
    (r : UploadRequest)
    (h : NetCall.upload r ∈ (uploadToDropboxWithRetry env tok data mr s).2.calls) :
    NetCall.upload r ∈ s.calls ∨ r.payload = JSONstringify data :=
  uploadLoop_payload env tok data mr mr 1 s r h

/-- What the POST branch does once the existing record `D` has been read and the merge
yields `M`: every upload request it adds carries `M`, and a 200 answer echoes `M`. -/
theorem postTry_merged (env : Env) (event : Event) (s : Proc) (body D M : Json)
    (hb : parseBody event.body = .ok body)
    (hD : ∀ s1, (readCurrent env s1).1 = D)
    (hM : mergeRecord body D = .ok M) :
    (∀ r, NetCall.upload r ∈ (postTry env event s).2.calls →
        NetCall.upload r ∈ s.calls ∨ r.payload = JSONstringify M) ∧
    (∀ resp, (postTry env event s).1 = .ok resp → resp.statusCode = 200 →
        resp.body = JSONstringify (.obj [("success", .bool true), ("data", M)])) := by
  unfold postTry
  simp only [hb]
  split
  · exact ⟨fun r h => Or.inl h, fun resp h => by simp at h⟩
  · exact ⟨fun r h => Or.inl h, fun resp h => by simp at h⟩
  · split
    · refine ⟨fun r h => Or.inl h, fun resp h h2 => ?_⟩
      simp at h
      rw [← h] at h2
      simp [errorResponse] at h2
    · split
      · rename_i m s1 heq
        refine ⟨fun r h => ?_, fun resp h => by simp at h⟩
        have hc := getDropboxAccessToken_calls env s
        rw [heq] at hc
        simp only [] at h hc
        rw [hc] at h
        simp at h
        exact Or.inl h
      · rename_i tok s1 heq
        have hc := getDropboxAccessToken_calls env s
        rw [heq] at hc
        simp only [] at hc
        have hr := readCurrent_calls env s1
        have hv := hD s1
        generalize readCurrent env s1 = rc at hr hv
        obtain ⟨cur, s2⟩ := rc
        simp only [] at hr hv ⊢
        subst hv
        rw [hM]
        simp only []
        have hu := upload_payload env tok M 3 s2
        generalize uploadToDropboxWithRetry env tok M 3 s2 = up at hu
        obtain ⟨res, s3⟩ := up
        simp only [] at hu
        have key : ∀ r, NetCall.upload r ∈ s3.calls →
            NetCall.upload r ∈ s.calls ∨ r.payload = JSONstringify M := by
          intro r h
          rcases hu r h with h1 | h1
          · rw [hr, hc] at h1
            simp at h1
            exact Or.inl h1
          · exact Or.inr h1
        cases res with
        | error m => exact ⟨key, fun resp h => by simp at h⟩
        | ok v =>
          refine ⟨key, fun resp h _ => ?_⟩
          simp at h
          rw [← h]

theorem ownValue_obj (U : List (String × Json)) (k : String)
    (h : lookup "hasOwnProperty" U = none) : ownValue (.obj U) k = .ok (lookup k U) := by
  unfold ownValue
  cases hk : lookup k U <;>
    simp [hasOwnProperty, h, hk, getProp, bind, Except.bind, pure, Except.pure]

theorem ownValue_shadowed (U : List (String × Json)) (k : String) (v : Json)
    (h : lookup "hasOwnProperty" U = some v) :
    ownValue (.obj U) k = .error (notAFunctionError "body.hasOwnProperty") := by
  unfold ownValue
  simp [hasOwnProperty, h, bind, Except.bind]

theorem getProp_ok (j : Json) (k : String) (h : j ≠ .null) :
    ∃ v, getProp (some j) k = .ok v := by
  cases j with
  | null => exact absurd rfl h
  | obj kvs => exact ⟨_, rfl⟩
  | bool b => exact ⟨_, rfl⟩
  | num n => exact ⟨_, rfl⟩
  | str t => exact ⟨_, rfl⟩
  | arr xs => exact ⟨_, rfl⟩

theorem tryUpload_ok (env : Env) (tok : JsVal) (data : Json) (mr attempt : Nat) (s : Proc)
    (h : ∀ k, ∃ st b, env.upload k = .response true st b) :
    ∃ st, (tryUpload env tok data mr attempt s).1 = .returned st := by
  obtain ⟨st, b, hk⟩ := h (throttle env s).suspensions
  refine ⟨st, ?_⟩
  unfold tryUpload
  simp [hk]

theorem upload_succeeds (env : Env) (tok : JsVal) (data : Json) (n : Nat) (s : Proc)
    (h : ∀ k, ∃ st b, env.upload k = .response true st b) :
    (∃ st, (uploadToDropboxWithRetry env tok data (n + 1) s).1 = .ok (some st)) ∧
    (uploadToDropboxWithRetry env tok data (n + 1) s).2.calls
      = .upload (requestOf env tok data s) :: s.calls := by
  obtain ⟨st, hst⟩ := tryUpload_ok env tok data (n + 1) 1 s h
  have hc := (tryUpload_calls env tok data (n + 1) 1 s).1
  unfold uploadToDropboxWithRetry uploadLoop
  generalize tryUpload env tok data (n + 1) 1 s = t at hst hc
  obtain ⟨o, s1⟩ := t
  simp only [] at hst hc
  subst hst
  exact ⟨⟨st, rfl⟩, hc⟩
theorem storageHandler_post (cfg : Config) (env : Env) (event : Event) (s : Proc)
    (hm : event.httpMethod = "POST") :
    storageHandler cfg env event s
      = if unset cfg.DROPBOX_REFRESH_TOKEN || unset cfg.DROPBOX_APP_KEY
            || unset cfg.DROPBOX_APP_SECRET then
          (errorResponse 500 "Missing Dropbox OAuth credentials", s)
        else orError500 (postTry env event s) := by
  unfold storageHandler
  simp [hm]

theorem orError500_calls (r : Except String Response × Proc) :
    (orError500 r).2 = r.2 := by
  obtain ⟨res, s⟩ := r
  cases res <;> rfl

theorem orError500_200 (r : Except String Response × Proc)
    (h : (orError500 r).1.statusCode = 200) : r.1 = .ok (orError500 r).1 := by
  obtain ⟨res, s⟩ := r
  cases res with
  | ok v => rfl
  | error m => simp [orError500, errorResponse] at h

/-- The POST branch once the body parses to the object `U` and the existing record reads as
the object `E`: every upload request it adds carries the merged record, and a 200 answer
echoes it. -/
theorem storage_post_spec (cfg : Config) (env : Env) (event : Event) (s : Proc)
    (U E : List (String × Json)) (hmethod : event.httpMethod = "POST")
    (hpb : parseBody event.body = .ok (.obj U))
    (hD : ∀ s1, (readCurrent env s1).1 = .obj E) :
    (∀ r, NetCall.upload r ∈ (storageHandler cfg env event s).2.calls →
        NetCall.upload r ∈ s.calls ∨ r.payload = JSONstringify (.obj (specMerge U E))) ∧
    ((storageHandler cfg env event s).1.statusCode = 200 →
        (storageHandler cfg env event s).1.body
          = JSONstringify (.obj [("success", .bool true), ("data", .obj (specMerge U E))])) := by
  rw [storageHandler_post cfg env event s hmethod]
  refine ⟨?_, ?_⟩
  · intro r h
    split at h
    · exact Or.inl h
    · rw [orError500_calls] at h
      cases hs : lookup "hasOwnProperty" U with
      | none =>
        exact (postTry_merged env event s _ _ _ hpb hD (mergeRecord_obj U E hs)).1 r h
      | some v =>
        have : postTry env event s = (.error (notAFunctionError "body.hasOwnProperty"), s) := by
          unfold postTry
          simp [hpb, ownValue_shadowed U _ v hs]
        rw [this] at h
        exact Or.inl h
  · intro h
    split at h
    · simp [errorResponse] at h
    · rename_i hcfg
      simp only [hcfg]
      have h1 := orError500_200 _ h
      cases hs : lookup "hasOwnProperty" U with
      | none =>
        exact (postTry_merged env event s _ _ _ hpb hD (mergeRecord_obj U E hs)).2 _ h1 h
      | some v =>
        have : postTry env event s = (.error (notAFunctionError "body.hasOwnProperty"), s) := by
          unfold postTry
          simp [hpb, ownValue_shadowed U _ v hs]
        rw [this] at h1
        simp at h1

/-- The POST branch on its success path: with the credentials set, a body object that has one
of the two keys and leaves `hasOwnProperty` alone, a token answer and upload answers that
succeed, the handler issues exactly one upload, of the merged record, and answers 200. -/
theorem storage_post_success (cfg : Config) (env : Env) (event : Event) (s : Proc)
    (U E : List (String × Json)) (hmethod : event.httpMethod = "POST")
    (hpb : parseBody event.body = .ok (.obj U))
    (hD : ∀ s1, (readCurrent env s1).1 = .obj E)
    (hkeys : (lookup "address" U).isSome ∨ (lookup "unitNumber" U).isSome)
    (c1 : unset cfg.DROPBOX_REFRESH_TOKEN = false) (c2 : unset cfg.DROPBOX_APP_KEY = false)
    (c3 : unset cfg.DROPBOX_APP_SECRET = false) (hs : lookup "hasOwnProperty" U = none)
    (htok : ∃ st t j, env.token = .response true st t ∧ t.parsed = .ok j ∧ j ≠ .null)
    (hup : ∀ k, ∃ st b, env.upload k = .response true st b) :
    (storageHandler cfg env event s).1.statusCode = 200 ∧
    ∃ r, uploadsIn (storageHandler cfg env event s).2.calls = r :: uploadsIn s.calls ∧
      r.payload = JSONstringify (.obj (specMerge U E)) := by
  rw [storageHandler_post cfg env event s hmethod]
  obtain ⟨st, t, j, ht, htp, hj⟩ := htok
  obtain ⟨tok, htokv⟩ := getProp_ok j "access_token" hj
  simp only [c1, c2, c3]
  have hnone : ((lookup "address" U).isNone && (lookup "unitNumber" U).isNone) = false := by
    rcases hkeys with h | h
    · cases ha : lookup "address" U <;> simp [ha] at h ⊢
    · cases hu : lookup "unitNumber" U <;> simp [hu] at h ⊢
  have hg : ∃ s1, getDropboxAccessToken env s = (.ok tok, s1) ∧ s1.calls = .token :: s.calls := by
    refine ⟨(getDropboxAccessToken env s).2, ?_, getDropboxAccessToken_calls env s⟩
    unfold getDropboxAccessToken
    simp [ht, htp, htokv]
  obtain ⟨s1, hg1, hg2⟩ := hg
  have hr := readCurrent_calls env s1
  have hv := hD s1
  obtain ⟨⟨ust, hu1⟩, hu2⟩ := upload_succeeds env tok (.obj (specMerge U E)) 2
    (readCurrent env s1).2 hup
  have hpost : postTry env event s
      = (.ok { statusCode := 200, headers := CORS_HEADERS,
               body := JSONstringify (.obj [("success", .bool true),
                 ("data", .obj (specMerge U E))]) },
          (uploadToDropboxWithRetry env tok (.obj (specMerge U E)) 3
            (readCurrent env s1).2).2) := by
    unfold postTry
    simp only [hpb, ownValue_obj U _ hs, hnone, hg1]
    generalize readCurrent env s1 = rc at hv hu1 hu2 ⊢
    obtain ⟨cur, s2⟩ := rc
    simp only [] at hv hu1 hu2 ⊢
    subst hv
    simp only [mergeRecord_obj U E hs]
    generalize uploadToDropboxWithRetry env tok (.obj (specMerge U E)) 3 s2 = up at hu1 ⊢
    obtain ⟨res, s3⟩ := up
    simp only [] at hu1
    subst hu1
    simp
  rw [hpost]
  refine ⟨rfl, requestOf env tok (.obj (specMerge U E)) (readCurrent env s1).2, ?_, rfl⟩
  have hu3 : (uploadToDropboxWithRetry env tok (.obj (specMerge U E)) 3
      (readCurrent env s1).2).2.calls
        = .upload (requestOf env tok (.obj (specMerge U E)) (readCurrent env s1).2)
            :: (readCurrent env s1).2.calls := hu2
  show uploadsIn (uploadToDropboxWithRetry env tok (.obj (specMerge U E)) 3
      (readCurrent env s1).2).2.calls = _
  rw [hu3, hr, hg2]
  simp [uploadsIn]

/-- C1. For every existing record `E` read from storage and every POST body `U` that is a JSON
object with at least one of the keys `address` and `unitNumber`: every upload request the
handler issues carries the record `E` updated at the keys of `address`, `unitNumber` present
in `U`, a 200 answer echoes that record in `data`, the record has at every key the value `U`
gives (for a recognised key present in `U`) or the value `E` has (for every other key), and
with credentials set, a body that leaves `hasOwnProperty` alone, a token answer and upload
answers that succeed, the handler issues exactly one such upload and answers 200. -/
theorem post_uploads_merged_record (cfg : Config) (env : Env) (event : Event) (s : Proc)
    (request stored : Text) (status : Nat) (U E : List (String × Json))
    (hmethod : event.httpMethod = "POST")
    (hbody : event.body = some request) (hU : request.parsed = .ok (.obj U))
    (hkeys : (lookup "address" U).isSome ∨ (lookup "unitNumber" U).isSome)
    (hread : env.download = .response true status stored)
    (hE : stored.parsed = .ok (.obj E)) :
    (∀ r, NetCall.upload r ∈ (storageHandler cfg env event s).2.calls →
        NetCall.upload r ∈ s.calls ∨ r.payload = JSONstringify (.obj (specMerge U E))) ∧
    ((storageHandler cfg env event s).1.statusCode = 200 →
        (storageHandler cfg env event s).1.body
          = JSONstringify (.obj [("success", .bool true), ("data", .obj (specMerge U E))])) ∧
    (∀ k, lookup k (specMerge U E)
        = if (k = "address" ∨ k = "unitNumber") ∧ (lookup k U).isSome then lookup k U
          else lookup k E) ∧
    (unset cfg.DROPBOX_REFRESH_TOKEN = false → unset cfg.DROPBOX_APP_KEY = false →
      unset cfg.DROPBOX_APP_SECRET = false → lookup "hasOwnProperty" U = none →
      (∃ st t j, env.token = .response true st t ∧ t.parsed = .ok j ∧ j ≠ .null) →
      (∀ k, ∃ st b, env.upload k = .response true st b) →
        (storageHandler cfg env event s).1.statusCode = 200 ∧
        ∃ r, uploadsIn (storageHandler cfg env event s).2.calls = r :: uploadsIn s.calls ∧
          r.payload = JSONstringify (.obj (specMerge U E))) := by
  have hpb : parseBody event.body = .ok (.obj U) := by simp [parseBody, hbody, hU]
  have hD : ∀ s1, (readCurrent env s1).1 = .obj E :=
    fun s1 => readCurrent_value env s1 status stored _ hread hE
  have h := storage_post_spec cfg env event s U E hmethod hpb hD
  exact ⟨h.1, h.2, lookup_specMerge U E, fun c1 c2 c3 hs htok hup =>
    storage_post_success cfg env event s U E hmethod hpb hD hkeys c1 c2 c3 hs htok hup⟩

/-- C1 at a sample input: the stored record has the keys address, note and unitNumber, the
body sets unitNumber to the empty string; the handler answers 200 with that record. -/
theorem post_uploads_merged_record_witness :
    (storageHandler sampleConfig sampleEnv (postOf [("unitNumber", .str "")])
        (freshProc 5000)).1.statusCode = 200 ∧
    (storageHandler sampleConfig sampleEnv (postOf [("unitNumber", .str "")])
        (freshProc 5000)).1.body
      = JSONstringify (.obj [("success", .bool true), ("data", .obj
          [("address", .str "1 Main St"), ("note", .str "keep"), ("unitNumber", .str "")])]) :=
  ⟨by decide,
   (post_uploads_merged_record sampleConfig sampleEnv (postOf [("unitNumber", .str "")])
      (freshProc 5000) (textOf (.obj [("unitNumber", .str "")])) (textOf (.obj sampleRecord)) 200
      [("unitNumber", .str "")] sampleRecord rfl rfl rfl (Or.inr rfl) rfl rfl).2.1
      (by decide)⟩

theorem mergeRecord_shadowed (U : List (String × Json)) (c v : Json)
    (h : lookup "hasOwnProperty" U = some v) :
    mergeRecord (.obj U) c = .error (notAFunctionError "body.hasOwnProperty") := by
  unfold mergeRecord updateField
  simp [hasOwnProperty, h, bind, Except.bind]

/-- C9. The record merge is idempotent: merging the update `U` into the result of merging `U`
into `E` gives what merging `U` into `E` once gives; so of two identical POSTs, the first
against a store holding `E` and the second against the store holding what the first wrote,
every upload carries the same record and the two 200 answers have the same body. -/
theorem merge_idempotent (cfg : Config) (env1 env2 : Env) (event : Event) (s1 s2 : Proc)
    (request stored1 stored2 : Text) (st1 st2 : Nat) (U E : List (String × Json))
    (hmethod : event.httpMethod = "POST")
    (hbody : event.body = some request) (hU : request.parsed = .ok (.obj U))
    (hread1 : env1.download = .response true st1 stored1)
    (hE : stored1.parsed = .ok (.obj E))
    (hread2 : env2.download = .response true st2 stored2)
    (hstable : stored2.parsed = .ok (.obj (specMerge U E))) :
    (mergeRecord (.obj U) (.obj E) >>= mergeRecord (.obj U)) = mergeRecord (.obj U) (.obj E) ∧
    (∀ r, NetCall.upload r ∈ (storageHandler cfg env1 event s1).2.calls →
        NetCall.upload r ∈ s1.calls ∨ r.payload = JSONstringify (.obj (specMerge U E))) ∧
    (∀ r, NetCall.upload r ∈ (storageHandler cfg env2 event s2).2.calls →
        NetCall.upload r ∈ s2.calls ∨ r.payload = JSONstringify (.obj (specMerge U E))) ∧
    ((storageHandler cfg env1 event s1).1.statusCode = 200 →
      (storageHandler cfg env2 event s2).1.statusCode = 200 →
        (storageHandler cfg env2 event s2).1.body = (storageHandler cfg env1 event s1).1.body) := by
  have hpb : parseBody event.body = .ok (.obj U) := by simp [parseBody, hbody, hU]
  have hD1 : ∀ s, (readCurrent env1 s).1 = .obj E :=
    fun s => readCurrent_value env1 s st1 stored1 _ hread1 hE
  have hD2 : ∀ s, (readCurrent env2 s).1 = .obj (specMerge U E) :=
    fun s => readCurrent_value env2 s st2 stored2 _ hread2 hstable
  have h1 := storage_post_spec cfg env1 event s1 U E hmethod hpb hD1
  have h2 := storage_post_spec cfg env2 event s2 U (specMerge U E) hmethod hpb hD2
  rw [specMerge_idem] at h2
  refine ⟨?_, h1.1, h2.1, fun a b => by rw [h1.2 a, h2.2 b]⟩
  cases hs : lookup "hasOwnProperty" U with
  | none =>
    rw [mergeRecord_obj U E hs]
    show mergeRecord (.obj U) (.obj (specMerge U E)) = _
    rw [mergeRecord_obj U _ hs, specMerge_idem]
  | some v =>
    rw [mergeRecord_shadowed U _ v hs]
    rfl

/-- C9 at a sample input: the same POST twice, the second against the store the first left. -/
theorem merge_idempotent_witness :
    (storageHandler sampleConfig (storeOf (specMerge [("address", .str "")] sampleRecord))
        (postOf [("address", .str "")]) (freshProc 9000)).1.body
      = (storageHandler sampleConfig sampleEnv (postOf [("address", .str "")])
        (freshProc 5000)).1.body :=
  (merge_idempotent sampleConfig sampleEnv
    (storeOf (specMerge [("address", .str "")] sampleRecord)) (postOf [("address", .str "")])
    (freshProc 5000) (freshProc 9000) (textOf (.obj [("address", .str "")]))
    (textOf (.obj sampleRecord)) (textOf (.obj (specMerge [("address", .str "")] sampleRecord)))
    200 200 [("address", .str "")] sampleRecord rfl rfl rfl rfl rfl rfl rfl).2.2.2
    (by decide) (by decide)

/-- C6, counterexample. The store answers ok with a content that is not valid JSON, and the
handler answers 200 and uploads the record made of the body alone. -/
theorem corrupt_store_is_overwritten :
    (storageHandler sampleConfig corruptEnv (postOf [("address", .str "9 Elm")])
        (freshProc 5000)).1.statusCode = 200 ∧
    (uploadsIn (storageHandler sampleConfig corruptEnv (postOf [("address", .str "9 Elm")])
        (freshProc 5000)).2.calls).map (fun r => r.payload)
      = [JSONstringify (.obj [("address", .str "9 Elm")])] := by
  decide

/-- C6, amended. When the read of the existing record succeeds but its content is not valid
JSON, the handler goes on with the empty record: every upload request it issues and every 200
answer carry the record made of just the recognised keys of the body, and on the success path
(credentials, token and uploads succeed) it issues exactly one upload and answers 200. -/
theorem invalid_store_read_as_empty (cfg : Config) (env : Env) (event : Event) (s : Proc)
    (request stored : Text) (status : Nat) (m : String) (U : List (String × Json))
    (hmethod : event.httpMethod = "POST")
    (hbody : event.body = some request) (hU : request.parsed = .ok (.obj U))
    (hkeys : (lookup "address" U).isSome ∨ (lookup "unitNumber" U).isSome)
    (hread : env.download = .response true status stored)
    (hbad : stored.parsed = .error m) :
    (readCurrent env s).1 = .obj [] ∧
    (∀ r, NetCall.upload r ∈ (storageHandler cfg env event s).2.calls →
        NetCall.upload r ∈ s.calls ∨ r.payload = JSONstringify (.obj (specMerge U []))) ∧
    ((storageHandler cfg env event s).1.statusCode = 200 →
        (storageHandler cfg env event s).1.body
          = JSONstringify (.obj [("success", .bool true), ("data", .obj (specMerge U []))])) ∧
    (unset cfg.DROPBOX_REFRESH_TOKEN = false → unset cfg.DROPBOX_APP_KEY = false →
      unset cfg.DROPBOX_APP_SECRET = false → lookup "hasOwnProperty" U = none →
      (∃ st t j, env.token = .response true st t ∧ t.parsed = .ok j ∧ j ≠ .null) →
      (∀ k, ∃ st b, env.upload k = .response true st b) →
        (storageHandler cfg env event s).1.statusCode = 200 ∧
        ∃ r, uploadsIn (storageHandler cfg env event s).2.calls = r :: uploadsIn s.calls ∧
          r.payload = JSONstringify (.obj (specMerge U []))) := by
  have hpb : parseBody event.body = .ok (.obj U) := by simp [parseBody, hbody, hU]
  have hD : ∀ s1, (readCurrent env s1).1 = .obj [] :=
    fun s1 => readCurrent_invalid env s1 status stored m hread hbad
  have h := storage_post_spec cfg env event s U [] hmethod hpb hD
  exact ⟨hD s, h.1, h.2, fun c1 c2 c3 hs htok hup =>
    storage_post_success cfg env event s U [] hmethod hpb hD hkeys c1 c2 c3 hs htok hup⟩

/-- C6, amended, at the sample input of the counterexample. -/
theorem invalid_store_read_as_empty_witness :
    (storageHandler sampleConfig corruptEnv (postOf [("address", .str "9 Elm")])
        (freshProc 5000)).1.statusCode = 200 :=
  ((invalid_store_read_as_empty sampleConfig corruptEnv (postOf [("address", .str "9 Elm")])
      (freshProc 5000) (textOf (.obj [("address", .str "9 Elm")]))
      ⟨"address=1 Main St", .error "Unexpected token"⟩ 200 "Unexpected token"
      [("address", .str "9 Elm")] rfl rfl rfl (Or.inl rfl) rfl rfl).2.2.2
    rfl rfl rfl rfl ⟨200, _, _, rfl, rfl, by simp⟩ (fun _ => ⟨200, _, rfl⟩)).1

theorem postTry_status (env : Env) (event : Event) (s : Proc) (U : List (String × Json))
    (hpb : parseBody event.body = .ok (.obj U))
    (hkeys : (lookup "address" U).isSome ∨ (lookup "unitNumber" U).isSome) :
    (orError500 (postTry env event s)).1.statusCode ≠ 400 := by
  have hnone : ((lookup "address" U).isNone && (lookup "unitNumber" U).isNone) = false := by
    rcases hkeys with h | h
    · cases ha : lookup "address" U <;> simp [ha] at h ⊢
    · cases hu : lookup "unitNumber" U <;> simp [hu] at h ⊢
  cases hs : lookup "hasOwnProperty" U with
  | some v =>
    have : postTry env event s = (.error (notAFunctionError "body.hasOwnProperty"), s) := by
      unfold postTry
      simp [hpb, ownValue_shadowed U _ v hs]
    rw [this]
    simp [orError500, errorResponse]
  | none =>
    unfold postTry
    simp only [hpb, ownValue_obj U _ hs, hnone]
    generalize getDropboxAccessToken env s = g
    obtain ⟨res, s1⟩ := g
    cases res with
    | error m => simp [orError500, errorResponse]
    | ok tok =>
      simp only []
      generalize readCurrent env s1 = rc
      obtain ⟨cur, s2⟩ := rc
      simp only []
      cases mergeRecord (.obj U) cur with
      | error m => simp [orError500, errorResponse]
      | ok merged =>
        simp only []
        generalize uploadToDropboxWithRetry env tok merged 3 s2 = up
        obtain ⟨res, s3⟩ := up
        cases res <;> simp [orError500, errorResponse]

/-- C10, the code at the failing inputs. With the credentials set, a POST whose body is the
JSON text `null`, and a POST whose body is an object with the own key `hasOwnProperty` and
neither `address` nor `unitNumber`, parse and have neither key, and are answered with 500 and
the message of the TypeError, not with 400; no network call is made. -/
theorem null_body_answers_500 :
    (storageHandler sampleConfig sampleEnv
        { httpMethod := "POST", body := some (textOf .null) } (freshProc 5000)).1
      = errorResponse 500 (nullReadError "hasOwnProperty") ∧
    (storageHandler sampleConfig sampleEnv
        { httpMethod := "POST", body := some (textOf .null) } (freshProc 5000)).2.calls.length
      = 0 ∧
    (storageHandler sampleConfig sampleEnv (postOf [("hasOwnProperty", .num 1)])
        (freshProc 5000)).1
      = errorResponse 500 (notAFunctionError "body.hasOwnProperty") ∧
    (storageHandler sampleConfig sampleEnv (postOf [("hasOwnProperty", .num 1)])
        (freshProc 5000)).2.calls.length = 0 ∧
    (errorResponse 500 (nullReadError "hasOwnProperty")).statusCode = 500 := by
  decide

/-- The validation of lines 134-145 where the presence test can run. With the credentials set,
a POST whose body parses to a value other than `null` that has no own key `hasOwnProperty` and
neither of the keys `address` and `unitNumber` is answered with 400 and the error `Missing address and unitNumber fields`, the process state
unchanged (no network call); a body that is `null` or has an own key `hasOwnProperty` is
answered with 500, again without a network call; and a body with at least one of the two
keys, whatever its value, is never answered with 400. -/
theorem post_validation (cfg : Config) (env : Env) (event : Event) (s : Proc)
    (request : Text) (j : Json)
    (hmethod : event.httpMethod = "POST")
    (c1 : unset cfg.DROPBOX_REFRESH_TOKEN = false) (c2 : unset cfg.DROPBOX_APP_KEY = false)
    (c3 : unset cfg.DROPBOX_APP_SECRET = false)
    (hbody : event.body = some request) (hj : request.parsed = .ok j) :
    (j ≠ .null → hasKey j "hasOwnProperty" = false → hasKey j "address" = false →
      hasKey j "unitNumber" = false →
        storageHandler cfg env event s
          = (errorResponse 400 "Missing address and unitNumber fields", s)) ∧
    ((j = .null ∨ hasKey j "hasOwnProperty" = true) →
        (storageHandler cfg env event s).1.statusCode = 500 ∧
        (storageHandler cfg env event s).2 = s) ∧
    ((hasKey j "address" = true ∨ hasKey j "unitNumber" = true) →
        (storageHandler cfg env event s).1.statusCode ≠ 400) := by
  have hpb : parseBody event.body = .ok j := by simp [parseBody, hbody, hj]
  rw [storageHandler_post cfg env event s hmethod]
  simp only [c1, c2, c3]
  refine ⟨?_, ?_, ?_⟩
  · intro hn hs ha hu
    unfold postTry
    cases j with
    | null => exact absurd rfl hn
    | obj U =>
      simp only [hasKey] at hs ha hu
      have hs' : lookup "hasOwnProperty" U = none := by
        cases h : lookup "hasOwnProperty" U <;> simp [h] at hs ⊢
      have ha' : lookup "address" U = none := by
        cases h : lookup "address" U <;> simp [h] at ha ⊢
      have hu' : lookup "unitNumber" U = none := by
        cases h : lookup "unitNumber" U <;> simp [h] at hu ⊢
      simp [hpb, ownValue_obj U _ hs', ha', hu', orError500]
    | bool b => simp [hpb, ownValue, hasOwnProperty, bind, Except.bind, pure, Except.pure, orError500]
    | num n => simp [hpb, ownValue, hasOwnProperty, bind, Except.bind, pure, Except.pure, orError500]
    | str t => simp [hpb, ownValue, hasOwnProperty, bind, Except.bind, pure, Except.pure, orError500]
    | arr xs => simp [hpb, ownValue, hasOwnProperty, bind, Except.bind, pure, Except.pure, orError500]
  · intro h
    have : postTry env event s = (.error (nullReadError "hasOwnProperty"), s) ∨
        postTry env event s = (.error (notAFunctionError "body.hasOwnProperty"), s) := by
      rcases h with h | h
      · left
        subst h
        unfold postTry
        simp [hpb, ownValue, hasOwnProperty, bind, Except.bind]
      · right
        cases j with
        | obj U =>
          simp only [hasKey] at h
          cases hs : lookup "hasOwnProperty" U with
          | none => simp [hs] at h
          | some v =>
            unfold postTry
            simp [hpb, ownValue_shadowed U _ v hs]
        | null => simp [hasKey] at h
        | bool b => simp [hasKey] at h
        | num n => simp [hasKey] at h
        | str t => simp [hasKey] at h
        | arr xs => simp [hasKey] at h
    rcases this with h1 | h1 <;> rw [h1] <;> simp [orError500, errorResponse]
  · intro h
    cases j with
    | obj U =>
      simp only [hasKey] at h
      exact postTry_status env event s U hpb h
    | null => simp [hasKey] at h
    | bool b => simp [hasKey] at h
    | num n => simp [hasKey] at h
    | str t => simp [hasKey] at h
    | arr xs => simp [hasKey] at h

/-- The validation at sample inputs: a body with an unrelated key only is answered with the
400 text; a body whose only recognised key holds `null` is not answered with 400. -/
theorem post_validation_sample :
    storageHandler sampleConfig sampleEnv (postOf [("city", .str "Oslo")]) (freshProc 5000)
      = ({ statusCode := 400, headers := CORS_HEADERS,
           body := "\x7b\"error\":\"Missing address and unitNumber fields\"\x7d" },
         freshProc 5000) ∧
    (storageHandler sampleConfig sampleEnv (postOf [("address", .null)])
        (freshProc 5000)).1.statusCode ≠ 400 :=
  ⟨(post_validation sampleConfig sampleEnv (postOf [("city", .str "Oslo")]) (freshProc 5000)
      (textOf (.obj [("city", .str "Oslo")])) (.obj [("city", .str "Oslo")])
      rfl rfl rfl rfl rfl rfl).1 (by simp) rfl rfl rfl,
   (post_validation sampleConfig sampleEnv (postOf [("address", .null)]) (freshProc 5000)
      (textOf (.obj [("address", .null)])) (.obj [("address", .null)])
      rfl rfl rfl rfl rfl rfl).2.2 (Or.inl rfl)⟩

/-- The credential guard of dropbox-storage (lines 118-124): when any of the three
credentials is unset (absent or empty), every request other than OPTIONS, so every GET and
POST, is answered with 500 and the error `Missing Dropbox OAuth credentials`, the process
state unchanged (no network call). -/
theorem storage_requires_credentials (cfg : Config) (env : Env) (event : Event) (s : Proc)
    (hmissing : unset cfg.DROPBOX_REFRESH_TOKEN = true ∨ unset cfg.DROPBOX_APP_KEY = true ∨
      unset cfg.DROPBOX_APP_SECRET = true)
    (hmethod : event.httpMethod ≠ "OPTIONS") :
    storageHandler cfg env event s
      = (errorResponse 500 "Missing Dropbox OAuth credentials", s) := by
  unfold storageHandler
  rcases hmissing with h | h | h <;> simp [hmethod, h]

/-- The handler of compress-and-copy does the same whatever the configuration: nothing in it
tests the three credentials. -/
theorem copyHandler_ignores_config (cfg cfg' : Config) (env : CopyEnv) (event : Event) :
    copyHandler cfg env event = copyHandler cfg' env event := rfl

/-- C8, the code at the failing input. Without any credential a POST to compress-and-copy
goes through token exchange, download and upload and answers 200, with no missing-credentials
error; dropbox-storage with the same configuration answers a POST with 500 and
`Missing Dropbox OAuth credentials` and makes no network call. -/
theorem copy_post_without_credentials :
    copyHandler noConfig sampleCopyEnv (copyOf "house.jpg")
      = ({ statusCode := 200, headers := CORS,
           body := JSONstringify (.obj [("ok", .bool true), ("source", .str "/house.jpg"),
             ("compressed", .str "/SIR/house.jpg")]) },
         [.token, .download "/house.jpg", .upload "/SIR/house.jpg"]) ∧
    (storageHandler noConfig sampleEnv (postOf [("address", .str "9 Elm")])
        (freshProc 5000)).1
      = { statusCode := 500, headers := CORS_HEADERS,
          body := "\x7b\"error\":\"Missing Dropbox OAuth credentials\"\x7d" } ∧
    (storageHandler noConfig sampleEnv (postOf [("address", .str "9 Elm")])
        (freshProc 5000)).2.calls.length = 0 := by
  decide

/-- C5, counterexample. The token endpoint answers with a success status and a JSON body
without `access_token`, or with an empty one: both acquisitions return `undefined`, or the
empty string, and do not fail. -/
theorem token_absent_or_empty_is_returned :
    (getDropboxAccessToken { sampleEnv with token := tokenAnswer (.obj []) } (freshProc 0)).1
      = .ok none ∧
    getAccessToken { sampleCopyEnv with token := tokenAnswer (.obj []) } = .ok none ∧
    (getDropboxAccessToken
        { sampleEnv with token := tokenAnswer (.obj [("access_token", .str "")]) }
        (freshProc 0)).1 = .ok (some (.str "")) ∧
    getAccessToken { sampleCopyEnv with token := tokenAnswer (.obj [("access_token", .str "")]) }
      = .ok (some (.str "")) :=
  ⟨rfl, rfl, rfl, rfl⟩

/-- C5, amended. Token acquisition (both functions) fails when the request throws, when the
status is not a success status (with the response text in the message) and when the body
does not parse; when the endpoint answers with a success status and a JSON object it returns
the object's `access_token` as it is, `undefined` when absent, whatever its value. -/
theorem token_acquisition (env : Env) (cenv : CopyEnv) (s : Proc)
    (hsame : cenv.token = env.token) :
    (∀ m, env.token = .threw m →
      (getDropboxAccessToken env s).1 = .error m ∧ getAccessToken cenv = .error m) ∧
    (∀ st body, env.token = .response false st body →
      (getDropboxAccessToken env s).1
        = .error ("Failed to refresh Dropbox access token: " ++ body.raw) ∧
      getAccessToken cenv
        = .error ("Token exchange failed: " ++ toString st ++ " " ++ body.raw)) ∧
    (∀ st body m, env.token = .response true st body → body.parsed = .error m →
      (getDropboxAccessToken env s).1 = .error m ∧ getAccessToken cenv = .error m) ∧
    (∀ st body kvs, env.token = .response true st body → body.parsed = .ok (.obj kvs) →
      (getDropboxAccessToken env s).1 = .ok (lookup "access_token" kvs) ∧
      getAccessToken cenv = .ok (lookup "access_token" kvs)) := by
  refine ⟨?_, ?_, ?_, ?_⟩
  · intro m h
    simp [getDropboxAccessToken, getAccessToken, hsame, h]
  · intro st body h
    simp [getDropboxAccessToken, getAccessToken, hsame, h]
  · intro st body m h hp
    simp [getDropboxAccessToken, getAccessToken, hsame, h, hp]
  · intro st body kvs h hp
    simp [getDropboxAccessToken, getAccessToken, hsame, h, hp, getProp]

/-- C5, amended, at a sample input: a success answer whose `access_token` is the empty string. -/
theorem token_acquisition_witness :
    (getDropboxAccessToken
        { sampleEnv with token := tokenAnswer (.obj [("access_token", .str "")]) }
        (freshProc 0)).1 = .ok (some (.str "")) ∧
    getAccessToken { sampleCopyEnv with token := tokenAnswer (.obj [("access_token", .str "")]) }
      = .ok (some (.str "")) :=
  (token_acquisition { sampleEnv with token := tokenAnswer (.obj [("access_token", .str "")]) }
    { sampleCopyEnv with token := tokenAnswer (.obj [("access_token", .str "")]) }
    (freshProc 0) rfl).2.2.2 200 (textOf (.obj [("access_token", .str "")]))
    [("access_token", .str "")] rfl rfl

theorem isFilename_of_no_slash (c : Char) (cs : List Char) (h : '/' ∉ c :: cs) :
    isFilename (c :: cs) = true := by
  unfold isFilename
  simp only [List.isEmpty_cons, Bool.not_false, Bool.true_and, List.all_eq_true]
  intro x hx
  have : x ≠ '/' := fun e => h (e ▸ hx)
  simpa using this

theorem isFilename_of_slash (cs : List Char) (h : '/' ∈ cs) : isFilename cs = false := by
  unfold isFilename
  have : cs.all (fun c => c != '/') = false := by
    rw [List.all_eq_false]
    exact ⟨'/', h, by simp⟩
  simp [this]

theorem replaceFilename_split (d b : List Char) (hb : '/' ∉ b)
    (hd : d = [] ∨ d.getLast? = some '/') :
    replaceFilename (d ++ b) = if b = [] then d else d ++ ("SIR/".toList ++ b) := by
  induction d with
  | nil =>
    cases b with
    | nil => rfl
    | cons c cs =>
      simp only [List.nil_append, replaceFilename, isFilename_of_no_slash c cs hb]
      simp
  | cons c d ih =>
    have hlast : (c :: d).getLast? = some '/' := by
      rcases hd with h | h
      · exact absurd h (List.cons_ne_nil c d)
      · exact h
    have hmem : '/' ∈ c :: d ++ b :=
      List.mem_append_left b (List.mem_of_getLast?_eq_some hlast)
    have hd' : d = [] ∨ d.getLast? = some '/' := by
      cases d with
      | nil => exact Or.inl rfl
      | cons e es => right; simpa using hlast
    show replaceFilename (c :: (d ++ b)) = _
    have hmem' : '/' ∈ c :: (d ++ b) := by simpa using hmem
    simp only [replaceFilename, isFilename_of_slash _ hmem', ih hd']
    by_cases hbe : b = []
    · simp [hbe]
    · simp [hbe]

theorem uploadPathOf_split (d b : String) (hb : '/' ∉ b.toList)
    (hd : d = "" ∨ d.toList.getLast? = some '/') :
    uploadPathOf (d ++ b) = if b = "" then "/" ++ d else "/" ++ d ++ "SIR/" ++ b := by
  have hd' : d.toList = [] ∨ d.toList.getLast? = some '/' := by
    rcases hd with h | h
    · left; subst h; rfl
    · exact Or.inr h
  have h := replaceFilename_split d.toList b.toList hb hd'
  unfold uploadPathOf
  have e : (d ++ b).toList = d.toList ++ b.toList := String.data_append d b
  rw [e, h]
  by_cases hbe : b = ""
  · subst hbe
    simp
  · have : b.toList ≠ [] := fun h0 => hbe (String.ext h0)
    simp only [hbe, this, if_false]
    apply String.ext
    simp [String.data_append]

theorem copyHandler_200 (cfg : Config) (env : CopyEnv) (event : Event)
    (kvs : List (String × Json)) (p : String)
    (hmethod : event.httpMethod = "POST")
    (hparse : parseBodyOrEmpty event.body = .ok (.obj kvs))
    (hpath : lookup "path" kvs = some (.str p))
    (h200 : (copyHandler cfg env event).1.statusCode = 200) :
    copyHandler cfg env event
      = ({ statusCode := 200, headers := CORS,
           body := JSONstringify (.obj [("ok", .bool true), ("source", .str ("/" ++ p)),
             ("compressed", .str (uploadPathOf p))]) },
         [.token, .download ("/" ++ p), .upload (uploadPathOf p)]) := by
  have hne : event.httpMethod ≠ "OPTIONS" := by rw [hmethod]; decide
  unfold copyHandler copyTry at h200 ⊢
  simp only [hmethod, hparse, bind, Except.bind, getProp, hpath] at h200 ⊢
  cases ht : truthy (some (Json.str p)) with
  | false => simp [ht, missingPath] at h200
  | true =>
    simp only [ht] at h200 ⊢
    cases hg : getAccessToken env with
    | error m => simp [hg] at h200
    | ok tok =>
      simp only [hg] at h200 ⊢
      cases hdl : env.download with
      | threw m => simp [hdl] at h200
      | response ok st body =>
        simp only [hdl] at h200 ⊢
        cases ok with
        | false => simp at h200
        | true =>
          cases hf : env.format with
          | error m => simp [hf] at h200
          | ok format =>
            simp only [hf] at h200 ⊢
            cases he : env.encode (encoderOf format) with
            | error m => simp [he] at h200
            | ok out =>
              simp only [he] at h200 ⊢
              cases hu : env.upload with
              | threw m => simp [hu] at h200
              | response ok2 st2 body2 =>
                cases ok2 with
                | false => simp [hu] at h200
                | true => simp [hu, toStringJs]

/-- C7, counterexample. For the path `a/`, whose longest suffix without a slash is empty, the
upload path is `/a/`, not `/a/SIR/`: nothing is inserted. -/
theorem trailing_slash_path_unchanged :
    uploadPathOf ("a/" ++ "") ≠ "/" ++ "a/" ++ "SIR/" ++ "" ∧
    copyHandler sampleConfig sampleCopyEnv (copyOf ("a/" ++ ""))
      = ({ statusCode := 200, headers := CORS,
           body := JSONstringify (.obj [("ok", .bool true), ("source", .str "/a/"),
             ("compressed", .str "/a/")]) },
         [.token, .download "/a/", .upload "/a/"]) := by
  decide

/-- C7, amended. Let the request path be `d ++ b` with `b` its longest suffix without a slash.
When `b` is not empty, the upload path is `/`, `d`, `SIR/`, `b`; when `b` is empty (the path
ends in a slash or is empty) the pattern finds no filename and the upload path is `/` followed
by the path unchanged.  A 200 answer reports `/` followed by the path as `source` and the
upload path as `compressed`, after a token exchange, a download of the source and an upload
to the upload path. -/
theorem upload_path_inserts_SIR (cfg : Config) (env : CopyEnv) (event : Event)
    (kvs : List (String × Json)) (d b : String)
    (hmethod : event.httpMethod = "POST")
    (hparse : parseBodyOrEmpty event.body = .ok (.obj kvs))
    (hpath : lookup "path" kvs = some (.str (d ++ b)))
    (hb : '/' ∉ b.toList) (hd : d = "" ∨ d.toList.getLast? = some '/') :
    uploadPathOf (d ++ b) = (if b = "" then "/" ++ d else "/" ++ d ++ "SIR/" ++ b) ∧
    ((copyHandler cfg env event).1.statusCode = 200 →
      copyHandler cfg env event
        = ({ statusCode := 200, headers := CORS,
             body := JSONstringify (.obj [("ok", .bool true), ("source", .str ("/" ++ (d ++ b))),
               ("compressed", .str (if b = "" then "/" ++ d else "/" ++ d ++ "SIR/" ++ b))]) },
           [.token, .download ("/" ++ (d ++ b)),
            .upload (if b = "" then "/" ++ d else "/" ++ d ++ "SIR/" ++ b)])) := by
  have h := uploadPathOf_split d b hb hd
  refine ⟨h, fun h200 => ?_⟩
  rw [← h]
  exact copyHandler_200 cfg env event kvs (d ++ b) hmethod hparse hpath h200

/-- C7, amended, at the sample inputs `a/b/c.jpg` and `house.jpg`. -/
theorem upload_path_inserts_SIR_witness :
    uploadPathOf "a/b/c.jpg" = "/a/b/SIR/c.jpg" ∧
    copyHandler sampleConfig sampleCopyEnv (copyOf "house.jpg")
      = ({ statusCode := 200, headers := CORS,
           body := "\x7b\"ok\":true,\"source\":\"/house.jpg\",\"compressed\":\"/SIR/house.jpg\"\x7d" },
         [.token, .download "/house.jpg", .upload "/SIR/house.jpg"]) :=
  ⟨(upload_path_inserts_SIR sampleConfig sampleCopyEnv (copyOf "a/b/c.jpg")
      [("path", .str "a/b/c.jpg")] "a/b/" "c.jpg" rfl rfl rfl (by decide) (Or.inr rfl)).1,
   (upload_path_inserts_SIR sampleConfig sampleCopyEnv (copyOf "house.jpg")
      [("path", .str "house.jpg")] "" "house.jpg" rfl rfl rfl (by decide) (Or.inl rfl)).2
      (by decide)⟩

theorem uploadsIn_upload (r : UploadRequest) (calls : List NetCall) :
    uploadsIn (.upload r :: calls) = r :: uploadsIn calls := rfl

theorem tryUpload_rateLimited (env : Env) (tok : JsVal) (data : Json) (mr attempt : Nat)
    (s : Proc) (bodies : Nat → Json)
    (hfail : ∀ k, ∃ st raw, env.upload k = .response false st ⟨raw, .ok (bodies k)⟩)
    (hrate : ∀ k, CarriesRateLimit (bodies k)) :
    (tryUpload env tok data mr attempt s).1
      = if attempt < mr then .continued
        else .thrown ("Upload failed: "
          ++ JSONstringify (bodies (requestOf env tok data s).slot)) := by
  obtain ⟨st, raw, hk⟩ := hfail (throttle env s).suspensions
  have hr := rateLimit_of_carries _ (hrate (throttle env s).suspensions)
  unfold tryUpload requestOf
  simp only [hk, hr]
  by_cases h : attempt < mr <;> simp [h]

theorem uploadLoop_exhausts (env : Env) (tok : JsVal) (data : Json) (mr : Nat)
    (bodies : Nat → Json)
    (hfail : ∀ k, ∃ st raw, env.upload k = .response false st ⟨raw, .ok (bodies k)⟩)
    (hrate : ∀ k, CarriesRateLimit (bodies k)) :
    ∀ (n attempt : Nat) (s : Proc), attempt + n = mr →
      ∃ last rest,
        uploadsIn (uploadLoop env tok data mr (n + 1) attempt s).2.calls = last :: rest ∧
        (uploadsIn (uploadLoop env tok data mr (n + 1) attempt s).2.calls).length
          = (uploadsIn s.calls).length + (n + 1) ∧
        (uploadLoop env tok data mr (n + 1) attempt s).1
          = .error ("Upload failed: " ++ JSONstringify (bodies last.slot)) := by
  intro n
  induction n with
  | zero =>
    intro attempt s h
    have h1 := tryUpload_rateLimited env tok data mr attempt s bodies hfail hrate
    have hc := (tryUpload_calls env tok data mr attempt s).1
    have hlt : ¬ attempt < mr := by omega
    have heq : attempt = mr := by omega
    rw [if_neg hlt] at h1
    unfold uploadLoop
    generalize tryUpload env tok data mr attempt s = t at h1 hc
    obtain ⟨o, s1⟩ := t
    simp only [] at h1 hc
    subst h1
    simp only [heq, if_true]
    refine ⟨requestOf env tok data s, uploadsIn s.calls, ?_, ?_, rfl⟩
    · rw [hc]; rfl
    · rw [hc]; simp [uploadsIn_upload]
  | succ n ih =>
    intro attempt s h
    have h1 := tryUpload_rateLimited env tok data mr attempt s bodies hfail hrate
    have hc := (tryUpload_calls env tok data mr attempt s).1
    have hlt : attempt < mr := by omega
    rw [if_pos hlt] at h1
    unfold uploadLoop
    generalize tryUpload env tok data mr attempt s = t at h1 hc
    obtain ⟨o, s1⟩ := t
    simp only [] at h1 hc
    subst h1
    simp only []
    obtain ⟨last, rest, e1, e2, e3⟩ := ih (attempt + 1) s1 (by omega)
    refine ⟨last, rest, e1, ?_, e3⟩
    rw [e2, hc, uploadsIn_upload]
    simp
    omega

/-- C2. For every `maxRetries` of at least 1, when every upload request is answered with an
HTTP failure whose body carries the rate-limit reason `too_many_write_operations` with
`retry_after` 1, `uploadToDropboxWithRetry` issues exactly `maxRetries` upload requests and
then throws the error `Upload failed: ` followed by the JSON of the body that answered the
last of them. -/
theorem rate_limit_exhausts_retries (env : Env) (tok : JsVal) (data : Json)
    (maxRetries : Nat) (s : Proc) (bodies : Nat → Json)
    (hmax : 1 ≤ maxRetries)
    (hfail : ∀ k, ∃ st raw, env.upload k = .response false st ⟨raw, .ok (bodies k)⟩)
    (hrate : ∀ k, CarriesRateLimit (bodies k)) :
    ∃ last rest,
      uploadsIn (uploadToDropboxWithRetry env tok data maxRetries s).2.calls = last :: rest ∧
      (uploadsIn (uploadToDropboxWithRetry env tok data maxRetries s).2.calls).length
        = (uploadsIn s.calls).length + maxRetries ∧
      (uploadToDropboxWithRetry env tok data maxRetries s).1
        = .error ("Upload failed: " ++ JSONstringify (bodies last.slot)) := by
  obtain ⟨n, rfl⟩ : ∃ n, maxRetries = n + 1 := ⟨maxRetries - 1, by omega⟩
  unfold uploadToDropboxWithRetry
  exact uploadLoop_exhausts env tok data (n + 1) bodies hfail hrate n 1 s (by omega)

/-- C2 at a sample input: three attempts against an endpoint that always reports the rate
limit. -/
theorem rate_limit_exhausts_retries_witness :
    ∃ last rest,
      uploadsIn (uploadToDropboxWithRetry rateLimitedEnv (some (.str "t")) (.obj sampleRecord) 3
        (freshProc 5000)).2.calls = last :: rest ∧
      (uploadsIn (uploadToDropboxWithRetry rateLimitedEnv (some (.str "t")) (.obj sampleRecord) 3
        (freshProc 5000)).2.calls).length = (uploadsIn (freshProc 5000).calls).length + 3 ∧
      (uploadToDropboxWithRetry rateLimitedEnv (some (.str "t")) (.obj sampleRecord) 3
        (freshProc 5000)).1
        = .error ("Upload failed: " ++ JSONstringify ((fun _ => rateLimitBody) last.slot)) :=
  rate_limit_exhausts_retries rateLimitedEnv (some (.str "t")) (.obj sampleRecord) 3
    (freshProc 5000) (fun _ => rateLimitBody) (by decide) (fun _ => ⟨429, _, rfl⟩)
    (fun _ => ⟨_, _, _, rfl, rfl, rfl, rfl, rfl⟩)

/-- C4, the code at the failing input. The upload endpoint answers every request with a
path-conflict error, which is not a rate-limit report; with `maxRetries` 3 the function
issues three upload requests, not one, and only then throws. -/
theorem non_rate_limit_failure_is_retried :
    (uploadsIn (uploadToDropboxWithRetry conflictEnv (some (.str "t")) (.obj sampleRecord) 3
        (freshProc 5000)).2.calls).length = 3 ∧
    (uploadToDropboxWithRetry conflictEnv (some (.str "t")) (.obj sampleRecord) 3
        (freshProc 5000)).2.clock = 5000 + 1000 + 2000 ∧
    (uploadToDropboxWithRetry conflictEnv (some (.str "t")) (.obj sampleRecord) 3
        (freshProc 5000)).1 = .error ("Upload failed: " ++ JSONstringify conflictBody) := by
  refine ⟨by decide, by decide, rfl⟩

theorem mem_uploadsIn (r : UploadRequest) (calls : List NetCall) :
    r ∈ uploadsIn calls ↔ NetCall.upload r ∈ calls := by
  induction calls with
  | nil => simp [uploadsIn]
  | cons c cs ih =>
    cases c with
    | token => simpa [uploadsIn] using ih
    | download => simpa [uploadsIn] using ih
    | upload q =>
      have : uploadsIn (.upload q :: cs) = q :: uploadsIn cs := rfl
      rw [this, List.mem_cons, List.mem_cons, ih]
      constructor
      · rintro (h | h)
        · exact Or.inl (by rw [h])
        · exact Or.inr h
      · rintro (h | h)
        · injection h with h
          exact Or.inl h
        · exact Or.inr h

theorem tryUpload_clock (env : Env) (tok : JsVal) (data : Json) (mr attempt : Nat) (s : Proc) :
    s.clock ≤ (tryUpload env tok data mr attempt s).2.clock := by
  have h1 := (throttle_spec env s).2.2.2
  have h2 := (tryUpload_calls env tok data mr attempt s).2
  have h3 : (requestOf env tok data s).issuedAt = (throttle env s).clock := rfl
  omega

theorem uploadLoop_clock (env : Env) (tok : JsVal) (data : Json) (mr : Nat) :
    ∀ (left attempt : Nat) (s : Proc),
      s.clock ≤ (uploadLoop env tok data mr left attempt s).2.clock := by
  intro left
  induction left with
  | zero => intro attempt s; exact le_refl _
  | succ n ih =>
    intro attempt s
    have hc := tryUpload_clock env tok data mr attempt s
    unfold uploadLoop
    generalize tryUpload env tok data mr attempt s = t at hc
    obtain ⟨o, s1⟩ := t
    simp only [] at hc
    cases o with
    | returned st => exact hc
    | continued => exact le_trans hc (ih _ _)
    | thrown m =>
      simp only []
      split
      · exact hc
      · refine le_trans hc (le_trans ?_ (ih _ _))
        simp only [tick_clock]
        omega

/-- What one call does to the rate limiter: every request it adds saw the `lastUploadTime` of
the start, was issued at least the interval later, and not after the call ended; a call that
returns the ok response has set `lastUploadTime` to the clock, at least the interval after
the old value; any other call leaves `lastUploadTime` as it was. -/
theorem uploadLoop_spacing (env : Env) (tok : JsVal) (data : Json) (mr : Nat) :
    ∀ (left attempt : Nat) (s : Proc),
      (∀ r, NetCall.upload r ∈ (uploadLoop env tok data mr left attempt s).2.calls →
        NetCall.upload r ∈ s.calls ∨
        (r.lastUploadTime = s.lastUploadTime ∧
          s.lastUploadTime + MIN_UPLOAD_INTERVAL ≤ r.issuedAt ∧
          r.issuedAt ≤ (uploadLoop env tok data mr left attempt s).2.clock)) ∧
      ((∃ st, (uploadLoop env tok data mr left attempt s).1 = .ok (some st)) →
        (uploadLoop env tok data mr left attempt s).2.lastUploadTime
          = (uploadLoop env tok data mr left attempt s).2.clock ∧
        s.lastUploadTime + MIN_UPLOAD_INTERVAL
          ≤ (uploadLoop env tok data mr left attempt s).2.clock) ∧
      ((¬ ∃ st, (uploadLoop env tok data mr left attempt s).1 = .ok (some st)) →
        (uploadLoop env tok data mr left attempt s).2.lastUploadTime = s.lastUploadTime) := by
  intro left
  induction left with
  | zero =>
    intro attempt s
    exact ⟨fun r h => Or.inl h, fun ⟨st, h⟩ => by simp [uploadLoop] at h, fun _ => rfl⟩
  | succ n ih =>
    intro attempt s
    obtain ⟨hc, hclock⟩ := tryUpload_calls env tok data mr attempt s
    obtain ⟨_, hl, hwait, _⟩ := throttle_spec env s
    have hq1 : (requestOf env tok data s).lastUploadTime = s.lastUploadTime := hl
    have hq2 : s.lastUploadTime + MIN_UPLOAD_INTERVAL ≤ (requestOf env tok data s).issuedAt :=
      hwait
    have hst := tryUpload_state env tok data mr attempt s
    unfold uploadLoop
    generalize tryUpload env tok data mr attempt s = t at hc hclock hst
    obtain ⟨o, s1⟩ := t
    simp only [] at hc hclock hst
    have old : ∀ s2 : Proc, s1.clock ≤ s2.clock → ∀ r, NetCall.upload r ∈ s1.calls →
        NetCall.upload r ∈ s.calls ∨
        (r.lastUploadTime = s.lastUploadTime ∧
          s.lastUploadTime + MIN_UPLOAD_INTERVAL ≤ r.issuedAt ∧ r.issuedAt ≤ s2.clock) := by
      intro s2 h2 r hr
      rw [hc] at hr
      rcases List.mem_cons.mp hr with e | e
      · injection e with e
        right
        rw [e]
        exact ⟨hq1, hq2, le_trans hclock h2⟩
      · exact Or.inl e
    have cont : ∀ s2 : Proc, s2.calls = s1.calls → s2.lastUploadTime = s.lastUploadTime →
        s1.clock ≤ s2.clock →
        (∀ r, NetCall.upload r ∈ (uploadLoop env tok data mr n (attempt + 1) s2).2.calls →
          NetCall.upload r ∈ s.calls ∨
          (r.lastUploadTime = s.lastUploadTime ∧
            s.lastUploadTime + MIN_UPLOAD_INTERVAL ≤ r.issuedAt ∧
            r.issuedAt ≤ (uploadLoop env tok data mr n (attempt + 1) s2).2.clock)) ∧
        ((∃ st, (uploadLoop env tok data mr n (attempt + 1) s2).1 = .ok (some st)) →
          (uploadLoop env tok data mr n (attempt + 1) s2).2.lastUploadTime
            = (uploadLoop env tok data mr n (attempt + 1) s2).2.clock ∧
          s.lastUploadTime + MIN_UPLOAD_INTERVAL
            ≤ (uploadLoop env tok data mr n (attempt + 1) s2).2.clock) ∧
        ((¬ ∃ st, (uploadLoop env tok data mr n (attempt + 1) s2).1 = .ok (some st)) →
          (uploadLoop env tok data mr n (attempt + 1) s2).2.lastUploadTime
            = s.lastUploadTime) := by
      intro s2 hcalls hlast hck
      obtain ⟨i1, i2, i3⟩ := ih (attempt + 1) s2
      have hmono := uploadLoop_clock env tok data mr n (attempt + 1) s2
      refine ⟨fun r hr => ?_, fun hs => ?_, fun hs => ?_⟩
      · rcases i1 r hr with h | h
        · rw [hcalls] at h
          exact old _ (le_trans hck hmono) r h
        · rw [hlast] at h
          exact Or.inr h
      · have := i2 hs
        rw [hlast] at this
        exact this
      · rw [i3 hs, hlast]
    cases o with
    | returned st =>
      rcases hst with ⟨st', _, e1⟩ | ⟨hne, _⟩
      · refine ⟨old s1 (le_refl _), fun _ => ⟨e1, ?_⟩, fun hs => absurd ⟨st, rfl⟩ hs⟩
        exact le_trans hq2 hclock
      · exact absurd rfl (hne st)
    | continued =>
      rcases hst with ⟨st', e0, _⟩ | ⟨_, e1⟩
      · simp at e0
      · exact cont s1 rfl e1 (le_refl _)
    | thrown m =>
      rcases hst with ⟨st', e0, _⟩ | ⟨_, e1⟩
      · simp at e0
      · simp only []
        split
        · exact ⟨old s1 (le_refl _), fun ⟨st, h⟩ => by simp at h, fun _ => e1⟩
        · refine cont (tick env (1000 * attempt) s1) rfl e1 ?_
          simp only [tick_clock]
          omega

theorem uploadLoop_success_request (env : Env) (tok : JsVal) (data : Json) (mr : Nat) :
    ∀ (left attempt : Nat) (s : Proc),
      (∃ st, (uploadLoop env tok data mr left attempt s).1 = .ok (some st)) →
      ∃ r rest, (uploadLoop env tok data mr left attempt s).2.calls = .upload r :: rest := by
  intro left
  induction left with
  | zero => intro attempt s ⟨st, h⟩; simp [uploadLoop] at h
  | succ n ih =>
    intro attempt s
    have hc := (tryUpload_calls env tok data mr attempt s).1
    unfold uploadLoop
    generalize tryUpload env tok data mr attempt s = t at hc
    obtain ⟨o, s1⟩ := t
    simp only [] at hc
    cases o with
    | returned st => intro _; exact ⟨_, _, hc⟩
    | continued => exact ih _ _
    | thrown m =>
      simp only []
      split
      · intro ⟨st, h⟩; simp at h
      · exact ih _ _

theorem succeeded_iff (e : Episode) : succeeded e = true ↔ ∃ st, e.result = .ok (some st) := by
  unfold succeeded
  cases h : e.result with
  | error m => simp
  | ok v => cases v <;> simp

/-- The episode of one call, from the facts of `uploadLoop_spacing`. -/
theorem call_spacing (c : WriteCall) (s : Proc) :
    (∀ r, NetCall.upload r ∈
        (uploadToDropboxWithRetry c.env c.accessToken c.data c.maxRetries (startOf c s)).2.calls →
      r.lastUploadTime = s.lastUploadTime ∧
      s.lastUploadTime + MIN_UPLOAD_INTERVAL ≤ r.issuedAt ∧
      r.issuedAt
        ≤ (uploadToDropboxWithRetry c.env c.accessToken c.data c.maxRetries
            (startOf c s)).2.clock) ∧
    ((∃ st, (uploadToDropboxWithRetry c.env c.accessToken c.data c.maxRetries
        (startOf c s)).1 = .ok (some st)) →
      (uploadToDropboxWithRetry c.env c.accessToken c.data c.maxRetries
          (startOf c s)).2.lastUploadTime
        = (uploadToDropboxWithRetry c.env c.accessToken c.data c.maxRetries
            (startOf c s)).2.clock ∧
      s.lastUploadTime + MIN_UPLOAD_INTERVAL
        ≤ (uploadToDropboxWithRetry c.env c.accessToken c.data c.maxRetries
            (startOf c s)).2.clock) ∧
    s.lastUploadTime
      ≤ (uploadToDropboxWithRetry c.env c.accessToken c.data c.maxRetries
          (startOf c s)).2.lastUploadTime := by
  obtain ⟨h1, h2, h3⟩ :=
    uploadLoop_spacing c.env c.accessToken c.data c.maxRetries c.maxRetries 1 (startOf c s)
  have hl : (startOf c s).lastUploadTime = s.lastUploadTime := rfl
  rw [hl] at h1 h2 h3
  refine ⟨fun r hr => ?_, h2, ?_⟩
  · rcases h1 r hr with h | h
    · simp [startOf] at h
    · exact h
  · by_cases hs : ∃ st, (uploadLoop c.env c.accessToken c.data c.maxRetries c.maxRetries 1
        (startOf c s)).1 = .ok (some st)
    · have := h2 hs
      show s.lastUploadTime ≤ (uploadLoop c.env c.accessToken c.data c.maxRetries
        c.maxRetries 1 (startOf c s)).2.lastUploadTime
      omega
    · exact le_of_eq (h3 hs).symm

theorem runWrites_after (calls : List WriteCall) :
    ∀ (s : Proc) (B : Nat), B ≤ s.lastUploadTime → ∀ e ∈ runWrites calls s,
      (∀ r ∈ e.requests, B + MIN_UPLOAD_INTERVAL ≤ r.issuedAt) ∧
      (succeeded e = true → B + MIN_UPLOAD_INTERVAL ≤ e.finishedAt) := by
  induction calls with
  | nil => intro s B _ e he; simp [runWrites] at he
  | cons c cs ih =>
    intro s B hB e he
    obtain ⟨h1, h2, h3⟩ := call_spacing c s
    simp only [runWrites, List.mem_cons] at he
    rcases he with rfl | he
    · refine ⟨fun r hr => ?_, fun hs => ?_⟩
      · obtain ⟨_, q2, _⟩ := h1 r ((mem_uploadsIn r _).mp hr)
        omega
      · exact le_trans (Nat.add_le_add_right hB _) (h2 ((succeeded_iff _).mp hs)).2
    · exact ih _ B (le_trans hB h3) e he

theorem runWrites_each (calls : List WriteCall) :
    ∀ (s : Proc), ∀ e ∈ runWrites calls s,
      (∀ r ∈ e.requests,
        r.lastUploadTime + MIN_UPLOAD_INTERVAL ≤ r.issuedAt ∧ r.issuedAt ≤ e.finishedAt) ∧
      (succeeded e = true → e.recorded = e.finishedAt ∧ e.requests ≠ []) := by
  induction calls with
  | nil => intro s e he; simp [runWrites] at he
  | cons c cs ih =>
    intro s e he
    obtain ⟨h1, h2, _⟩ := call_spacing c s
    simp only [runWrites, List.mem_cons] at he
    rcases he with rfl | he
    · refine ⟨fun r hr => ?_, fun hs => ?_⟩
      · obtain ⟨q1, q2, q3⟩ := h1 r ((mem_uploadsIn r _).mp hr)
        exact ⟨by rw [q1]; exact q2, q3⟩
      · have hs' := (succeeded_iff _).mp hs
        refine ⟨(h2 hs').1, ?_⟩
        obtain ⟨q, rest, hq⟩ := uploadLoop_success_request c.env c.accessToken c.data
          c.maxRetries c.maxRetries 1 (startOf c s) hs'
        show uploadsIn (uploadLoop c.env c.accessToken c.data c.maxRetries c.maxRetries 1
          (startOf c s)).2.calls ≠ []
        rw [hq]
        exact List.cons_ne_nil _ _
    · exact ih _ e he

theorem runWrites_pairwise (calls : List WriteCall) :
    ∀ (s : Proc), (runWrites calls s).Pairwise (fun earlier later =>
      succeeded earlier = true →
        (∀ r ∈ later.requests, earlier.finishedAt + MIN_UPLOAD_INTERVAL ≤ r.issuedAt) ∧
        (succeeded later = true →
          earlier.finishedAt + MIN_UPLOAD_INTERVAL ≤ later.finishedAt)) := by
  induction calls with
  | nil => intro s; exact List.Pairwise.nil
  | cons c cs ih =>
    intro s
    obtain ⟨_, h2, _⟩ := call_spacing c s
    simp only [runWrites]
    refine List.Pairwise.cons (fun later hl hs => ?_) (ih _)
    have hrec := (h2 ((succeeded_iff _).mp hs)).1
    exact runWrites_after cs _ _ (le_of_eq hrec.symm) later hl

/-- C3. In every sequential execution (calls of `uploadToDropboxWithRetry` run one at a time
from a fresh module, every suspension lasting at least the time asked for): every upload
request is issued at least `MIN_UPLOAD_INTERVAL` = 1000 ms after the value `lastUploadTime`
had then, and before its call ends; a call that ends in a successful write has issued a
request and has recorded the clock of its end in `lastUploadTime`; and after a call that ended
in a successful write, every request of every later call is issued at least 1000 ms after
that end, so every later successful write completes at least 1000 ms after it. -/
theorem uploads_are_spaced (calls : List WriteCall) (clock : Nat) :
    MIN_UPLOAD_INTERVAL = 1000 ∧
    (∀ e ∈ runWrites calls (freshProc clock),
      (∀ r ∈ e.requests, r.lastUploadTime + 1000 ≤ r.issuedAt ∧ r.issuedAt ≤ e.finishedAt) ∧
      (succeeded e = true → e.recorded = e.finishedAt ∧ e.requests ≠ [])) ∧
    (runWrites calls (freshProc clock)).Pairwise (fun earlier later =>
      succeeded earlier = true →
        (∀ r ∈ later.requests, earlier.finishedAt + 1000 ≤ r.issuedAt) ∧
        (succeeded later = true → earlier.finishedAt + 1000 ≤ later.finishedAt)) :=
  ⟨rfl, runWrites_each calls (freshProc clock), runWrites_pairwise calls (freshProc clock)⟩

/-- C3 at a sample input: two writes in a row that both succeed; the first ends at 5000, the
second is issued and ends at 6000. -/
theorem uploads_are_spaced_witness :
    (runWrites [sampleWrite, sampleWrite] (freshProc 5000)).map
        (fun e => (succeeded e, e.finishedAt, e.requests.map (fun r => r.issuedAt)))
      = [(true, 5000, [5000]), (true, 6000, [6000])] ∧
    (runWrites [sampleWrite, sampleWrite] (freshProc 5000)).Pairwise (fun earlier later =>
      succeeded earlier = true →
        (∀ r ∈ later.requests, earlier.finishedAt + 1000 ≤ r.issuedAt) ∧
        (succeeded later = true → earlier.finishedAt + 1000 ≤ later.finishedAt)) :=
  ⟨by decide, (uploads_are_spaced [sampleWrite, sampleWrite] 5000).2.2⟩

end PhotoUploader
